import Mathlib

/-!
Verification of the mvfst connection core against its specification.

This file embeds, shallowly, the parts of the source that the checked
properties talk about:

* `quic/priority/RoundRobin.cpp` — the round-robin stream scheduler
  (cyclic list, cursor, advance-after-N-nexts / advance-after-N-bytes,
  hybrid indexed/linear erase).
* `quic/state/stream/StreamSendHandlers.cpp` — the stream send state
  machine handlers.
* `quic/client/state/ClientStateMachine.cpp` — retry undo, server
  transport-parameter ingestion, and the cached-parameter round trip.

C++ `std::list` iterators are modelled as indices into a `List Nat`;
`folly::Optional` as `Option`; fatal `CHECK` failures as a distinguished
result; machine integers as `Nat` with explicit `% 256` where a
`static_cast<uint8_t>` occurs in the source.  Fields whose internal
structure the source copies wholesale are abstracted as opaque `Nat`
values.  Definitions whose code lives outside the files in scope are
marked `Modelled from the spec:` in their doc comment.
-/

/- ===================================================================
   Part 1: RoundRobin (quic/priority/RoundRobin.cpp)
   =================================================================== -/

/-- Advance mode of the scheduler (`RoundRobin::AdvanceType`). -/
inductive AdvanceType where
  | Nexts
  | Bytes
deriving DecidableEq, Repr

/-- State of the round-robin scheduler.  `list` is the cyclic sequence of
stream identifiers (`list_`), `next` the index of the cursor `nextIt_`
(meaningful only when `list` is nonempty), `current` the counter
`current_`, and `advanceType` / `advanceAfter` the advance mode.  The
id-to-iterator side table `indexMap_` is not part of the observable
state; the two erase strategies it selects are modelled as two functions
below. -/
structure RoundRobin where
  list : List Nat
  next : Nat
  current : Nat
  advanceType : AdvanceType
  advanceAfter : Nat
deriving DecidableEq, Repr

namespace RoundRobin

/-- Modelled from the spec: the scheduler starts empty with counter 0
(the member initial values live in the header, which is not in scope;
they are irrelevant to every property proved here because the scenarios
set an advance mode before any consume happens). -/
def initial : RoundRobin :=
  { list := [], next := 0, current := 0,
    advanceType := AdvanceType.Nexts, advanceAfter := 0 }

/-- `RoundRobin::advanceAfterNext`. -/
def advanceAfterNext (s : RoundRobin) (n : Nat) : RoundRobin :=
  { s with
    current := if s.advanceType = AdvanceType.Bytes then 0 else s.current,
    advanceType := AdvanceType.Nexts,
    advanceAfter := n }

/-- `RoundRobin::advanceAfterBytes`. -/
def advanceAfterBytes (s : RoundRobin) (bytes : Nat) : RoundRobin :=
  { s with
    current := if s.advanceType = AdvanceType.Nexts then 0 else s.current,
    advanceType := AdvanceType.Bytes,
    advanceAfter := bytes }

/-- `RoundRobin::insert`: insert before the cursor (`list_.insert(nextIt_,
value)`); the cursor keeps designating the same element, which is now one
position further; if the list had been empty the cursor is set to the
single element.  The caller contract (source comment) is that the value
is not already present. -/
def insert (s : RoundRobin) (value : Nat) : RoundRobin :=
  let l := s.list.take s.next ++ value :: s.list.drop s.next
  if l.length = 1 then
    { s with list := l, next := 0 }
  else
    { s with list := l, next := s.next + 1 }

/-- `RoundRobin::maybeAdvance`: when the counter reaches `advanceAfter_`,
step the cursor (wrapping off the end to the beginning) and reset the
counter. -/
def maybeAdvance (s : RoundRobin) : RoundRobin :=
  if s.current ≥ s.advanceAfter then
    { s with next := (s.next + 1) % s.list.length, current := 0 }
  else s

/-- `RoundRobin::consume`: in Bytes mode add `bytes.value_or(0)` to the
counter, in Nexts mode add 1; then `maybeAdvance`. -/
def consume (s : RoundRobin) (bytes : Option Nat) : RoundRobin :=
  maybeAdvance
    (match s.advanceType with
     | AdvanceType.Bytes => { s with current := s.current + bytes.getD 0 }
     | AdvanceType.Nexts => { s with current := s.current + 1 })

/-- `RoundRobin::getNext`: return the element at the cursor, then
consume.  The source `CHECK(!list_.empty())` is a precondition; on an
empty list the model returns the default 0. -/
def getNext (s : RoundRobin) (bytes : Option Nat) : Nat × RoundRobin :=
  (s.list.getD s.next 0, consume s bytes)

/-- Run a sequence of `getNext` calls, collecting the returned ids. -/
def runGetNexts (s : RoundRobin) : List (Option Nat) → List Nat × RoundRobin
  | [] => ([], s)
  | b :: rest =>
    let r := getNext s b
    let t := runGetNexts r.2 rest
    (r.1 :: t.1, t.2)

/-- The scheduler of scenario S2: ids 1, 2, 3 inserted into an empty
scheduler, then `advanceAfterBytes(100)`. -/
def scenarioS2 : RoundRobin :=
  advanceAfterBytes (insert (insert (insert initial 1) 2) 3) 100

end RoundRobin

/-- C1 counterexample: in the S2 scenario the call sequence
`getNext(60), getNext(40), getNext(10), getNext(100)` returns
1, 1, 2, 2 — not 1, 1, 2, 3 as the claim states.  `getNext` returns the
cursor element before consuming, so the advance triggered by the fourth
call (which brings the counter for stream 2 to 110 ≥ 100) only shows on
the fifth call. -/
theorem roundRobin_s2_fourth_call_returns_2_not_3 :
    (RoundRobin.runGetNexts RoundRobin.scenarioS2
      [some 60, some 40, some 10, some 100]).1 ≠ [1, 1, 2, 3] := by
  decide

/-- C1 (amended): in the S2 scenario the sequence
`getNext(60), getNext(40), getNext(10), getNext(100)` returns
1, 1, 2, 2, and a fifth `getNext` returns 3: the cursor advances after at
least 100 bytes have been consumed from the current stream, and the
advance performed by a call takes effect on the following call. -/
theorem roundRobin_s2_sequence :
    (RoundRobin.runGetNexts RoundRobin.scenarioS2
      [some 60, some 40, some 10, some 100, none]).1 = [1, 1, 2, 2, 3] := by
  decide

/-- Scheduler in Bytes mode whose counter has already reached the
threshold (here: `advanceAfterBytes(0)`). -/
def c10AtThreshold : RoundRobin :=
  { list := [1, 2], next := 0, current := 0,
    advanceType := AdvanceType.Bytes, advanceAfter := 0 }

/-- Scheduler in Bytes mode strictly below the threshold. -/
def c10BelowThreshold : RoundRobin :=
  { list := [1, 2], next := 0, current := 7,
    advanceType := AdvanceType.Bytes, advanceAfter := 100 }

/-- Scheduler in Nexts mode. -/
def c10NextsMode : RoundRobin :=
  { list := [1, 2], next := 0, current := 0,
    advanceType := AdvanceType.Nexts, advanceAfter := 2 }

/-- C10 counterexample: in Bytes mode with the counter already at the
threshold (`advanceAfterBytes(0)`), `getNext(absent)` does move the
cursor: two successive `getNext(absent)` calls return 1 then 2, so
repeated absent-byte calls do not return the same identifier forever. -/
theorem roundRobin_getNext_absent_advances_at_threshold :
    (RoundRobin.runGetNexts c10AtThreshold [none, none]).1 = [1, 2] ∧
    (RoundRobin.getNext c10AtThreshold none).2.next ≠ c10AtThreshold.next := by
  decide

/-- C10 (amended): in Bytes mode, when the accumulated byte counter is
strictly below the advance threshold, `getNext(absent)` consumes 0
bytes: it returns the cursor element and leaves the whole scheduler
state (counter and cursor included) unchanged, so repeated
`getNext(absent)` calls return the same identifier forever; in Nexts
mode the result of `getNext` is independent of the byte argument and the
consume step increments the counter by 1 (the counter resets to 0 when
it reaches the threshold). -/
theorem roundRobin_getNext_absent_bytes_mode (s : RoundRobin) :
    (s.advanceType = AdvanceType.Bytes → s.current < s.advanceAfter →
      RoundRobin.getNext s none = (s.list.getD s.next 0, s) ∧
      ∀ n : Nat,
        (RoundRobin.getNext ((fun t => (RoundRobin.getNext t none).2)^[n] s)
            none).1 = s.list.getD s.next 0) ∧
    (s.advanceType = AdvanceType.Nexts → ∀ b : Option Nat,
      RoundRobin.getNext s b = RoundRobin.getNext s none ∧
      ((RoundRobin.getNext s b).2.current = s.current + 1 ∨
        ((RoundRobin.getNext s b).2.current = 0 ∧
          s.advanceAfter ≤ s.current + 1))) := by
  constructor
  · intro hb hc
    have hfix : RoundRobin.getNext s none = (s.list.getD s.next 0, s) := by
      obtain ⟨l, nx, cur, at_, aa⟩ := s
      cases at_ with
      | Bytes =>
        simp only [RoundRobin.getNext, RoundRobin.consume,
          RoundRobin.maybeAdvance]
        simp [not_le.mpr hc]
      | Nexts => simp at hb
    refine ⟨hfix, ?_⟩
    intro n
    have hiter : (fun t => (RoundRobin.getNext t none).2)^[n] s = s :=
      Function.iterate_fixed (by simp [hfix]) n
    rw [hiter, hfix]
  · intro hn b
    obtain ⟨l, nx, cur, at_, aa⟩ := s
    cases at_ with
    | Nexts =>
      refine ⟨rfl, ?_⟩
      simp only [RoundRobin.getNext, RoundRobin.consume,
        RoundRobin.maybeAdvance]
      by_cases h : aa ≤ cur + 1
      · right
        simp [h]
      · left
        simp [h]
    | Bytes => simp at hn

/-- Witness for C10's amended theorem at concrete schedulers. -/
theorem roundRobin_getNext_absent_bytes_mode_witness :
    RoundRobin.getNext c10BelowThreshold none = (1, c10BelowThreshold) ∧
    RoundRobin.getNext c10NextsMode (some 5) =
      RoundRobin.getNext c10NextsMode none :=
  ⟨((roundRobin_getNext_absent_bytes_mode c10BelowThreshold).1 (by decide)
      (by decide)).1,
   ((roundRobin_getNext_absent_bytes_mode c10NextsMode).2 (by decide)
      (some 5)).1⟩

namespace RoundRobin

/-- `RoundRobin::erase(ListType::iterator)`: remove the element at index
`i`.  Erasing the cursor element moves the cursor to the following
element (wrapping to the beginning when it falls off the end, as
`list_.erase` returns the successor) and resets the counter; erasing
another element leaves the cursor on the same element, whose index
shifts down by one when the erased element sat before it.  The
side-table destroy threshold in the source only switches the erase
strategy, which the trace theorems quantify over. -/
def eraseAt (s : RoundRobin) (i : Nat) : RoundRobin :=
  if i = s.next then
    let l := s.list.eraseIdx i
    { s with
      list := l
      next := if s.next = l.length then 0 else s.next
      current := 0 }
  else
    { s with
      list := s.list.eraseIdx i
      next := if i < s.next then s.next - 1 else s.next }

/-- Backward search of `RoundRobin::erase(Identifier)`:
`std::find(make_reverse_iterator(nextIt_), list_.rend(), value)` — the
nearest index strictly below the cursor holding `value`. -/
def findBack (s : RoundRobin) (value : Nat) : Option Nat :=
  (List.range s.next).reverse.find? (fun i => s.list.getD i 0 = value)

/-- Forward search of `RoundRobin::erase(Identifier)`:
`std::find(std::next(nextIt_), list_.end(), value)` — the nearest index
strictly above the cursor holding `value`. -/
def findFwd (s : RoundRobin) (value : Nat) : Option Nat :=
  (List.range' (s.next + 1) (s.list.length - (s.next + 1))).find?
    (fun i => s.list.getD i 0 = value)

/-- `RoundRobin::erase(Identifier)`, linear path (`useIndexMap_` false):
check the cursor element, then search backwards from just below the
cursor, then forwards from just above it.  (The `current_ = 0` of the
cursor branch is also performed inside `erase(iterator)`.) -/
def eraseLinear (s : RoundRobin) (value : Nat) : RoundRobin :=
  if s.list.isEmpty then s
  else if s.list.getD s.next 0 = value then
    { eraseAt s s.next with current := 0 }
  else
    match findBack s value with
    | some i => eraseAt s i
    | none =>
      match findFwd s value with
      | some i => eraseAt s i
      | none => s

/-- `RoundRobin::erase(Identifier)`, indexed path (`useIndexMap_` true):
`indexMap_` maps every present id to its list node, so the lookup finds
the position of `value` when present (unique by the insert contract). -/
def eraseIndexed (s : RoundRobin) (value : Nat) : RoundRobin :=
  if s.list.isEmpty then s
  else if value ∈ s.list then eraseAt s (s.list.indexOf value)
  else s

/-- An operation on the scheduler. -/
inductive Op where
  | insert (value : Nat)
  | erase (value : Nat)
  | advanceAfterNext (n : Nat)
  | advanceAfterBytes (b : Nat)
  | getNext (bytes : Option Nat)
deriving DecidableEq, Repr

/-- One step of a trace; `useIdx` says whether the id-to-node side table
is active, i.e. which erase path runs.  `getNext` produces an output. -/
def step (useIdx : Bool) (s : RoundRobin) : Op → Option Nat × RoundRobin
  | Op.insert v => (none, insert s v)
  | Op.erase v => (none, if useIdx then eraseIndexed s v else eraseLinear s v)
  | Op.advanceAfterNext n => (none, advanceAfterNext s n)
  | Op.advanceAfterBytes b => (none, advanceAfterBytes s b)
  | Op.getNext b => (some (getNext s b).1, (getNext s b).2)

/-- Run a trace under a per-step choice of erase path, collecting the
`getNext` outputs. -/
def runTrace (c : Nat → Bool) (i : Nat) (s : RoundRobin) :
    List Op → List (Option Nat) × RoundRobin
  | [] => ([], s)
  | op :: rest =>
    let r := step (c i) s op
    let t := runTrace c (i + 1) r.2 rest
    (r.1 :: t.1, t.2)

/-- Validity of a trace: inserted ids are fresh (the caller contract
stated in the source: never insert a duplicate) and `getNext` only runs
on a nonempty scheduler (the source `CHECK`).  Stated over the
linear-path run; the independence theorem shows every choice of paths
passes through the same states. -/
def validTrace (s : RoundRobin) : List Op → Bool
  | [] => true
  | op :: rest =>
    (match op with
     | Op.insert v => !(s.list.contains v)
     | Op.getNext _ => !s.list.isEmpty
     | _ => true) &&
    validTrace (step false s op).2 rest

/-- Well-formedness of a scheduler state: no duplicate ids and, when the
list is nonempty, the cursor is in range. -/
def WF (s : RoundRobin) : Prop :=
  s.list.Nodup ∧ (s.list = [] ∨ s.next < s.list.length)

end RoundRobin

namespace RoundRobin

/-- Validity of a single operation: inserted ids are fresh (the caller
contract stated in the source) and `getNext` only runs on a nonempty
scheduler (the source `CHECK`). -/
def opOk (s : RoundRobin) : Op → Bool
  | Op.insert v => !(s.list.contains v)
  | Op.getNext _ => !s.list.isEmpty
  | _ => true

end RoundRobin

/-- A `find?` over a list returns the unique element satisfying the
predicate. -/
theorem findUniqueAux {p : Nat → Bool} {xs : List Nat} {j : Nat}
    (hj : j ∈ xs) (hpj : p j = true)
    (huniq : ∀ i ∈ xs, p i = true → i = j) : xs.find? p = some j := by
  induction xs with
  | nil => cases hj
  | cons x xs ih =>
    by_cases hx : p x = true
    · have hxj : x = j := huniq x (List.mem_cons_self x xs) hx
      rw [List.find?_cons_of_pos _ hx, hxj]
    · rw [List.find?_cons_of_neg _ hx]
      rcases List.mem_cons.mp hj with h | h
      · exact absurd (h ▸ hpj) hx
      · exact ih h (fun i hi hpi => huniq i (List.mem_cons_of_mem _ hi) hpi)

/-- In a duplicate-free list, positions holding equal elements are
equal. -/
theorem nodupIndexUnique {l : List Nat} (hnd : l.Nodup) {i j : Nat}
    (hi : i < l.length) (hj : j < l.length)
    (h : l.get ⟨i, hi⟩ = l.get ⟨j, hj⟩) : i = j :=
  congrArg Fin.val ((List.Nodup.get_inj_iff hnd).mp h)

/-- A scheduler state whose counter is zero absorbs a `current := 0`
update. -/
theorem currentZeroUpdate (x : RoundRobin) (h : x.current = 0) :
    { x with current := 0 } = x := by
  cases x
  simp_all

/-- Core of C9: on a well-formed state the linear-search erase path and
the indexed erase path produce the same scheduler. -/
theorem eraseLinear_eq_eraseIndexed (s : RoundRobin) (v : Nat)
    (hwf : RoundRobin.WF s) :
    RoundRobin.eraseLinear s v = RoundRobin.eraseIndexed s v := by
  obtain ⟨hnd, hnext⟩ := hwf
  rcases hnext with hemp | hlt
  · simp [RoundRobin.eraseLinear, RoundRobin.eraseIndexed, hemp]
  · have hne : s.list.isEmpty = false := by
      rcases hl : s.list with _ | ⟨a, as⟩
      · rw [hl] at hlt
        simp at hlt
      · simp
    by_cases hcur : s.list.getD s.next 0 = v
    · have hget : s.list.get ⟨s.next, hlt⟩ = v := by
        rw [← List.getD_eq_get s.list 0 hlt]
        exact hcur
      have hvin : v ∈ s.list := hget ▸ List.get_mem _ _ _
      have hixlt : s.list.indexOf v < s.list.length :=
        List.indexOf_lt_length.mpr hvin
      have hidx : s.list.indexOf v = s.next :=
        nodupIndexUnique hnd hixlt hlt
          (by rw [List.indexOf_get hixlt, hget])
      have hc0 : (RoundRobin.eraseAt s s.next).current = 0 := by
        simp [RoundRobin.eraseAt]
      simp only [RoundRobin.eraseLinear, RoundRobin.eraseIndexed, hne,
        Bool.false_eq_true, if_false, hcur, if_pos, hvin, if_true, hidx,
        currentZeroUpdate _ hc0]
    · -- the cursor element is not `v`
      have hcurget : s.list.get ⟨s.next, hlt⟩ ≠ v := by
        rw [← List.getD_eq_get s.list 0 hlt]
        exact hcur
      by_cases hvin : v ∈ s.list
      · have hixlt : s.list.indexOf v < s.list.length :=
          List.indexOf_lt_length.mpr hvin
        have hixget : s.list.get ⟨s.list.indexOf v, hixlt⟩ = v :=
          List.indexOf_get hixlt
        have hixne : s.list.indexOf v ≠ s.next := by
          intro h
          apply hcurget
          have h2 : s.list.get ⟨s.next, hlt⟩ =
              s.list.get ⟨s.list.indexOf v, hixlt⟩ := by
            congr 1
            simp only [Fin.mk.injEq]
            exact h.symm
          rw [h2, hixget]
        rcases Nat.lt_or_ge (s.list.indexOf v) s.next with hblt | hbge
        · -- occurrence strictly before the cursor: backward search hits
          have hfb : RoundRobin.findBack s v = some (s.list.indexOf v) := by
            apply findUniqueAux
            · rw [List.mem_reverse, List.mem_range]
              exact hblt
            · simp only [decide_eq_true_eq]
              rw [List.getD_eq_get s.list 0 hixlt]
              exact hixget
            · intro i hi hpi
              rw [List.mem_reverse, List.mem_range] at hi
              have hilt : i < s.list.length := Nat.lt_trans hi hlt
              rw [decide_eq_true_eq, List.getD_eq_get s.list 0 hilt] at hpi
              exact nodupIndexUnique hnd hilt hixlt (by rw [hpi, hixget])
          simp only [RoundRobin.eraseLinear, RoundRobin.eraseIndexed, hne,
            Bool.false_eq_true, if_false, hcur, hvin, if_true, hfb]
        · have hbgt : s.next < s.list.indexOf v :=
            Nat.lt_of_le_of_ne hbge (fun h => hixne h.symm)
          have hfb : RoundRobin.findBack s v = none := by
            apply List.find?_eq_none.mpr
            intro i hi hpi
            rw [List.mem_reverse, List.mem_range] at hi
            have hilt : i < s.list.length := Nat.lt_trans hi hlt
            rw [decide_eq_true_eq, List.getD_eq_get s.list 0 hilt] at hpi
            have : i = s.list.indexOf v :=
              nodupIndexUnique hnd hilt hixlt (by rw [hpi, hixget])
            omega
          have hff : RoundRobin.findFwd s v = some (s.list.indexOf v) := by
            apply findUniqueAux
            · rw [List.mem_range'_1, Nat.add_sub_cancel' hlt]
              exact ⟨hbgt, hixlt⟩
            · simp only [decide_eq_true_eq]
              rw [List.getD_eq_get s.list 0 hixlt]
              exact hixget
            · intro i hi hpi
              rw [List.mem_range'_1, Nat.add_sub_cancel' hlt] at hi
              have hilt : i < s.list.length := hi.2
              rw [decide_eq_true_eq, List.getD_eq_get s.list 0 hilt] at hpi
              exact nodupIndexUnique hnd hilt hixlt (by rw [hpi, hixget])
          simp only [RoundRobin.eraseLinear, RoundRobin.eraseIndexed, hne,
            Bool.false_eq_true, if_false, hcur, hvin, if_true, hfb, hff]
      · -- `v` not present: both searches fail and both paths return `s`
        have hnotat : ∀ i, i < s.list.length → s.list.getD i 0 ≠ v := by
          intro i hilt h
          rw [List.getD_eq_get s.list 0 hilt] at h
          exact hvin (h ▸ List.get_mem _ _ _)
        have hfb : RoundRobin.findBack s v = none := by
          apply List.find?_eq_none.mpr
          intro i hi hpi
          rw [List.mem_reverse, List.mem_range] at hi
          rw [decide_eq_true_eq] at hpi
          exact hnotat i (Nat.lt_trans hi hlt) hpi
        have hff : RoundRobin.findFwd s v = none := by
          apply List.find?_eq_none.mpr
          intro i hi hpi
          rw [List.mem_range'_1, Nat.add_sub_cancel' hlt] at hi
          rw [decide_eq_true_eq] at hpi
          exact hnotat i hi.2 hpi
        simp only [RoundRobin.eraseLinear, RoundRobin.eraseIndexed, hne,
          Bool.false_eq_true, if_false, hcur, hvin, hfb, hff]

/-- Inserting a fresh id preserves well-formedness. -/
theorem wf_insert {s : RoundRobin} (hwf : RoundRobin.WF s) {v : Nat}
    (hv : v ∉ s.list) : RoundRobin.WF (RoundRobin.insert s v) := by
  obtain ⟨hnd, hnext⟩ := hwf
  have hperm : (s.list.take s.next ++ v :: s.list.drop s.next).Perm
      (v :: s.list) := by
    have h : (s.list.take s.next ++ v :: s.list.drop s.next).Perm
        (v :: (s.list.take s.next ++ s.list.drop s.next)) :=
      List.perm_middle
    rwa [List.take_append_drop] at h
  have hnd' : (s.list.take s.next ++ v :: s.list.drop s.next).Nodup :=
    hperm.nodup_iff.mpr (List.nodup_cons.mpr ⟨hv, hnd⟩)
  have hlen : (s.list.take s.next ++ v :: s.list.drop s.next).length =
      s.list.length + 1 := by
    rw [hperm.length_eq]
    simp
  simp only [RoundRobin.insert]
  by_cases hone : (s.list.take s.next ++ v :: s.list.drop s.next).length = 1
  · simp only [hone, if_pos, RoundRobin.WF]
    exact ⟨hnd', Or.inr (by omega)⟩
  · simp only [hone, if_false, RoundRobin.WF]
    refine ⟨hnd', Or.inr ?_⟩
    rcases hnext with hemp | hlt
    · exfalso
      apply hone
      rw [hlen, hemp]
      rfl
    · omega

/-- Erasing an in-range position preserves well-formedness. -/
theorem wf_eraseAt {s : RoundRobin} (hwf : RoundRobin.WF s) {i : Nat}
    (hi : i < s.list.length) : RoundRobin.WF (RoundRobin.eraseAt s i) := by
  obtain ⟨hnd, hnext⟩ := hwf
  have hnd' : (s.list.eraseIdx i).Nodup :=
    (List.eraseIdx_sublist s.list i).nodup hnd
  have hlen : (s.list.eraseIdx i).length = s.list.length - 1 := by
    rw [List.length_eraseIdx]
    simp [hi]
  have hlt : s.next < s.list.length := by
    rcases hnext with hemp | hlt
    · rw [hemp] at hi
      simp at hi
    · exact hlt
  by_cases hcase : i = s.next
  · subst hcase
    simp only [RoundRobin.eraseAt, eq_self_iff_true, if_true, RoundRobin.WF]
    refine ⟨hnd', ?_⟩
    by_cases hwrap : s.next = (s.list.eraseIdx s.next).length
    · rw [if_pos hwrap]
      rcases Nat.eq_zero_or_pos (s.list.eraseIdx s.next).length with hz | hp
      · exact Or.inl (List.length_eq_zero.mp hz)
      · exact Or.inr hp
    · rw [if_neg hwrap]
      exact Or.inr (by omega)
  · simp only [RoundRobin.eraseAt, hcase, if_false, RoundRobin.WF]
    refine ⟨hnd', Or.inr ?_⟩
    by_cases hord : i < s.next
    · rw [if_pos hord]
      omega
    · rw [if_neg hord]
      omega

/-- Both erase paths preserve well-formedness. -/
theorem wf_eraseIndexed {s : RoundRobin} (hwf : RoundRobin.WF s) (v : Nat) :
    RoundRobin.WF (RoundRobin.eraseIndexed s v) := by
  simp only [RoundRobin.eraseIndexed]
  by_cases hemp : s.list.isEmpty
  · simpa [hemp] using hwf
  · simp only [hemp, if_false]
    by_cases hvin : v ∈ s.list
    · simp only [hvin, if_pos]
      exact wf_eraseAt hwf (List.indexOf_lt_length.mpr hvin)
    · simpa [hvin] using hwf

/-- Every step of a valid trace preserves well-formedness. -/
theorem wf_step {s : RoundRobin} (hwf : RoundRobin.WF s) (u : Bool)
    {op : RoundRobin.Op} (hok : RoundRobin.opOk s op = true) :
    RoundRobin.WF (RoundRobin.step u s op).2 := by
  cases op with
  | insert v =>
    have hv : v ∉ s.list := by
      simpa [RoundRobin.opOk] using hok
    exact wf_insert hwf hv
  | erase v =>
    cases u with
    | true => exact wf_eraseIndexed hwf v
    | false =>
      have h := eraseLinear_eq_eraseIndexed s v hwf
      simp only [RoundRobin.step, h]
      exact wf_eraseIndexed hwf v
  | advanceAfterNext n => exact ⟨hwf.1, hwf.2⟩
  | advanceAfterBytes b => exact ⟨hwf.1, hwf.2⟩
  | getNext b =>
    have hok2 : s.list.isEmpty = false := by
      simpa [RoundRobin.opOk] using hok
    obtain ⟨hnd, hnext⟩ := hwf
    have hpos : 0 < s.list.length := by
      rcases hl : s.list with _ | ⟨a, as⟩
      · rw [hl] at hok2
        simp at hok2
      · simp
    have hlt : s.next < s.list.length := by
      rcases hnext with hemp | hlt
      · rw [hemp] at hpos
        simp at hpos
      · exact hlt
    obtain ⟨l, nx, cur, at_, aa⟩ := s
    cases at_ <;>
      simp only [RoundRobin.step, RoundRobin.getNext, RoundRobin.consume,
        RoundRobin.maybeAdvance, RoundRobin.WF] <;>
      split <;>
      refine ⟨hnd, Or.inr ?_⟩ <;>
      first
        | exact Nat.mod_lt _ hpos
        | exact hlt

/-- On a well-formed state a step does not depend on which erase path is
active. -/
theorem step_path_independent {s : RoundRobin} (hwf : RoundRobin.WF s)
    (u₁ u₂ : Bool) (op : RoundRobin.Op) :
    RoundRobin.step u₁ s op = RoundRobin.step u₂ s op := by
  cases op with
  | erase v =>
    simp only [RoundRobin.step]
    cases u₁ <;> cases u₂ <;>
      simp [eraseLinear_eq_eraseIndexed s v hwf]
  | insert v => rfl
  | advanceAfterNext n => rfl
  | advanceAfterBytes b => rfl
  | getNext b => rfl

/-- Identical states and a valid trace give identical runs for every
pair of per-step erase-path choices. -/
theorem runTrace_path_independent (c₁ c₂ : Nat → Bool) :
    ∀ (ops : List RoundRobin.Op) (i₁ i₂ : Nat) (s : RoundRobin),
      RoundRobin.WF s → RoundRobin.validTrace s ops = true →
      RoundRobin.runTrace c₁ i₁ s ops = RoundRobin.runTrace c₂ i₂ s ops := by
  intro ops
  induction ops with
  | nil =>
    intro i₁ i₂ s _ _
    rfl
  | cons op rest ih =>
    intro i₁ i₂ s hwf hv
    simp only [RoundRobin.validTrace, Bool.and_eq_true] at hv
    obtain ⟨hok, hrest⟩ := hv
    have hok' : RoundRobin.opOk s op = true := by
      cases op <;> simpa [RoundRobin.opOk] using hok
    have h₁ : RoundRobin.step (c₁ i₁) s op = RoundRobin.step false s op :=
      step_path_independent hwf _ _ op
    have h₂ : RoundRobin.step (c₂ i₂) s op = RoundRobin.step false s op :=
      step_path_independent hwf _ _ op
    have hwf' : RoundRobin.WF (RoundRobin.step false s op).2 :=
      wf_step hwf false hok'
    simp only [RoundRobin.runTrace, h₁, h₂]
    rw [ih (i₁ + 1) (i₂ + 1) _ hwf' hrest]

/-- C9 (confirmed): for every valid trace of insert, erase, advance-mode
and getNext operations starting from the empty scheduler, the run —
including the sequence of identifiers returned by getNext — is the same
whatever erase path (indexed or linear search) is used at each step,
i.e. it does not depend on whether the id-to-iterator side table is
active. -/
theorem roundRobin_trace_independent_of_index_table
    (c₁ c₂ : Nat → Bool) (ops : List RoundRobin.Op)
    (h : RoundRobin.validTrace RoundRobin.initial ops = true) :
    RoundRobin.runTrace c₁ 0 RoundRobin.initial ops =
      RoundRobin.runTrace c₂ 0 RoundRobin.initial ops :=
  runTrace_path_independent c₁ c₂ ops 0 0 RoundRobin.initial
    ⟨List.nodup_nil, Or.inl rfl⟩ h

/-- A sample trace exercising insert, both erase situations (cursor and
non-cursor), mode switches and getNext. -/
def c9SampleOps : List RoundRobin.Op :=
  [RoundRobin.Op.insert 1, RoundRobin.Op.insert 2, RoundRobin.Op.insert 3,
   RoundRobin.Op.advanceAfterNext 1, RoundRobin.Op.getNext none,
   RoundRobin.Op.erase 1, RoundRobin.Op.getNext none,
   RoundRobin.Op.advanceAfterBytes 10, RoundRobin.Op.erase 3,
   RoundRobin.Op.insert 7, RoundRobin.Op.getNext (some 4),
   RoundRobin.Op.getNext (some 20)]

/-- Witness for C9 on the sample trace, with the side table always
active on one side and never active on the other. -/
theorem roundRobin_trace_independent_witness :
    RoundRobin.runTrace (fun _ => true) 0 RoundRobin.initial c9SampleOps =
      RoundRobin.runTrace (fun _ => false) 0 RoundRobin.initial c9SampleOps :=
  roundRobin_trace_independent_of_index_table (fun _ => true) (fun _ => false)
    c9SampleOps (by decide)

/- ===================================================================
   Part 2: Stream send state machine
   (quic/state/stream/StreamSendHandlers.cpp)
   =================================================================== -/

/-- `StreamSendState`. -/
inductive StreamSendState where
  | Open
  | ResetSent
  | Closed
  | Invalid
deriving DecidableEq, Repr

/-- `StreamRecvState` (only its terminal / non-terminal distinction
matters here). -/
inductive StreamRecvState where
  | Open
  | ResetRecvd
  | Closed
  | Invalid
deriving DecidableEq, Repr

/-- The QUIC transport error codes these handlers produce. -/
inductive TransportErrorCode where
  | STREAM_STATE_ERROR
  | TRANSPORT_PARAMETER_ERROR
deriving DecidableEq, Repr

/-- `QuicError`: a transport error code plus a message. -/
structure QuicError where
  code : TransportErrorCode
  message : String
deriving DecidableEq, Repr

/-- Node role. -/
inductive QuicNodeType where
  | Client
  | Server
deriving DecidableEq, Repr

/-- Modelled from the spec: printable name of a send state, used in the
`STREAM_STATE_ERROR` messages (`streamStateToString` lives in
QuicStreamUtilities, outside the files in scope). -/
def streamStateToString : StreamSendState → String
  | StreamSendState.Open => "Open"
  | StreamSendState.ResetSent => "ResetSent"
  | StreamSendState.Closed => "Closed"
  | StreamSendState.Invalid => "Invalid"

/-- A retransmission chunk (`StreamBuffer`): offset, data length
(`data.chainLength()`), eof flag. -/
structure StreamBuffer where
  offset : Nat
  len : Nat
  eof : Bool
deriving DecidableEq, Repr

/-- A metadata-only retransmission entry (`WriteBufferMeta`). -/
structure WriteBufferMeta where
  offset : Nat
  length : Nat
  eof : Bool
deriving DecidableEq, Repr

/-- `WriteStreamFrame` as the ack handler reads it. -/
structure WriteStreamFrame where
  offset : Nat
  len : Nat
  fin : Bool
  fromBufMeta : Bool
deriving DecidableEq, Repr

/-- `StopSendingFrame`. -/
structure StopSendingFrame where
  errorCode : Nat
deriving DecidableEq, Repr

/-- The per-stream state the send handlers read and write.  Acked
intervals are closed `(first, last)` byte ranges.  The retransmission
buffers are maps keyed by offset, modelled as association lists.  Fields
the handlers only log (flow control) or only `DCHECK` (pending writes;
`DCHECK`s are compiled out in release builds) are not modelled. -/
structure QuicStreamState where
  id : Nat
  nodeType : QuicNodeType
  sendState : StreamSendState
  recvState : StreamRecvState
  finalWriteOffset : Option Nat
  appErrorCodeToPeer : Option Nat
  reliableSizeToPeer : Option Nat
  minReliableSizeAcked : Option Nat
  ackedIntervals : List (Nat × Nat)
  retransmissionBuffer : List (Nat × StreamBuffer)
  retransmissionBufMetas : List (Nat × WriteBufferMeta)
deriving DecidableEq, Repr

/-- Modelled from the spec: the stream-manager bookkeeping the handlers
touch — the stop-sending, deliverable, closed and pending-reset sets
(`QuicStreamManager` is outside the files in scope; each `addX` appends
to the respective set). -/
structure StreamManagerState where
  stopSendingStreams : List (Nat × Nat)
  deliverableStreams : List Nat
  closedStreams : List Nat
  pendingResets : List (Nat × Nat × Option Nat)
deriving DecidableEq, Repr

/-- Modelled from the spec: `addStopSending(id, errorCode)` enqueues a
pending reset request with the peer-supplied error code. -/
def addStopSending (m : StreamManagerState) (id errorCode : Nat) :
    StreamManagerState :=
  { m with stopSendingStreams := m.stopSendingStreams ++ [(id, errorCode)] }

/-- Modelled from the spec: `addDeliverable(id)` marks the stream so
delivery callbacks fire. -/
def addDeliverable (m : StreamManagerState) (id : Nat) : StreamManagerState :=
  { m with deliverableStreams := m.deliverableStreams ++ [id] }

/-- Modelled from the spec: `addClosed(id)` records the stream for the
closed-stream sweep. -/
def addClosed (m : StreamManagerState) (id : Nat) : StreamManagerState :=
  { m with closedStreams := m.closedStreams ++ [id] }

/-- Modelled from the spec: `appendPendingStreamReset` enqueues the
RESET_STREAM / RESET_STREAM_AT frame to send. -/
def appendPendingStreamReset (m : StreamManagerState) (id errorCode : Nat)
    (reliableSize : Option Nat) : StreamManagerState :=
  { m with pendingResets := m.pendingResets ++ [(id, errorCode, reliableSize)] }

/-- Modelled from the spec: stream id bit 0x2 marks a unidirectional
stream (QUIC v1 id encoding, per the data model "id encodes
role+direction per QUIC"). -/
def isBidirectionalStream (id : Nat) : Bool :=
  id % 4 < 2

/-- Modelled from the spec: a unidirectional stream whose initiator (bit
0x1) is this endpoint is a sending stream. -/
def isSendingStream (nodeType : QuicNodeType) (id : Nat) : Bool :=
  match nodeType with
  | QuicNodeType.Client => id % 4 = 2
  | QuicNodeType.Server => id % 4 = 3

/-- A byte offset lies in one of the acked intervals. -/
def containsByte (ivs : List (Nat × Nat)) (b : Nat) : Bool :=
  ivs.any (fun iv => iv.1 ≤ b ∧ b ≤ iv.2)

/-- Modelled from the spec: `allBytesAckedTill(x)` — every byte offset
up to and including `x` lies in some acked interval (the helper lives in
the stream state header, outside the files in scope). -/
def allBytesAckedTill (s : QuicStreamState) (x : Nat) : Bool :=
  (List.range (x + 1)).all (fun b => containsByte s.ackedIntervals b)

/-- Modelled from the spec: `updateAckedIntervals(offset, len, eof)`
records the chunk's bytes as acked; the FIN, when present, occupies the
offset one past the last data byte. -/
def updateAckedIntervals (ivs : List (Nat × Nat)) (offset len : Nat)
    (eof : Bool) : List (Nat × Nat) :=
  if len = 0 ∧ eof = false then ivs
  else (offset, offset + len - (if eof then 0 else 1)) :: ivs

/-- Modelled from the spec: all bytes through FIN are acked — the final
write offset is known and every offset up to and including it (the FIN
position) is acked (`allBytesTillFinAcked` lives in
QuicStreamFunctions, outside the files in scope). -/
def allBytesTillFinAcked (s : QuicStreamState) : Bool :=
  match s.finalWriteOffset with
  | some f => allBytesAckedTill s f
  | none => false

/-- Modelled from the spec: a stream is in terminal states when both the
send and the receive side are Closed or Invalid. -/
def inTerminalStates (s : QuicStreamState) : Bool :=
  decide ((s.sendState = StreamSendState.Closed ∨
      s.sendState = StreamSendState.Invalid) ∧
    (s.recvState = StreamRecvState.Closed ∨
      s.recvState = StreamRecvState.Invalid))

/-- Result of a handler: a fatal `CHECK` failure (process abort), a
returned `QuicError`, or the updated stream and manager state.  The
error constructor carries no state, mirroring the source's early return
before any mutation (the stream is left unchanged). -/
inductive HandlerResult (α : Type) where
  | fatal (msg : String)
  | error (e : QuicError)
  | ok (a : α)
deriving DecidableEq, Repr

/-- Error code of a handler result, when it is an error. -/
def errorCodeOf {α : Type} : HandlerResult α → Option TransportErrorCode
  | HandlerResult.error e => some e.code
  | _ => none

/-- Whether a handler result is a fatal `CHECK` failure. -/
def isFatalResult {α : Type} : HandlerResult α → Bool
  | HandlerResult.fatal _ => true
  | _ => false

/-- Lookup in an offset-keyed association list (`find(offset)`). -/
def findEntry {α : Type} (buf : List (Nat × α)) (offset : Nat) :
    Option (Nat × α) :=
  buf.find? (fun e => e.1 = offset)

/-- Erase from an offset-keyed association list (`erase(it)`; keys are
unique). -/
def eraseEntry {α : Type} (buf : List (Nat × α)) (offset : Nat) :
    List (Nat × α) :=
  buf.filter (fun e => e.1 ≠ offset)

/-- The `STREAM_STATE_ERROR` the handlers return on an illegal
transition. -/
def invalidTransitionError (st : StreamSendState) : QuicError :=
  ⟨TransportErrorCode.STREAM_STATE_ERROR,
    "Invalid transition from state=" ++ streamStateToString st⟩

/-- Modelled from the spec: `resetQuicStream` discards the data the
reset drops and records the reliable size sent to the peer
(`reliableSizeToPeer` is the spec's field tracking the re-sent
RESET_STREAM_AT size; the function lives in QuicStreamFunctions,
outside the files in scope; its buffer trimming is not observed by any
claim). -/
def resetQuicStream (s : QuicStreamState) (reliableSize : Option Nat) :
    QuicStreamState :=
  { s with reliableSizeToPeer := reliableSize }

/-- `sendStopSendingSMHandler`.  The Open-state `CHECK` that the stream
has a send half is a fatal assertion; the server-side flow-control
condition in the source only logs. -/
def sendStopSendingSMHandler (stream : QuicStreamState)
    (m : StreamManagerState) (frame : StopSendingFrame) :
    HandlerResult (QuicStreamState × StreamManagerState) :=
  match stream.sendState with
  | StreamSendState.Open =>
    if !(isBidirectionalStream stream.id ||
        isSendingStream stream.nodeType stream.id) then
      HandlerResult.fatal "not a sending stream"
    else
      HandlerResult.ok (stream, addStopSending m stream.id frame.errorCode)
  | StreamSendState.Closed => HandlerResult.ok (stream, m)
  | StreamSendState.ResetSent => HandlerResult.ok (stream, m)
  | StreamSendState.Invalid =>
    HandlerResult.error (invalidTransitionError stream.sendState)

/-- `sendRstSMHandler`: local reset.  In `Open`, three fatal checks
guard the reliable-size monotonicity and error-code immutability
contracts, then the error code is recorded, the stream is reset, the
frame is enqueued and the state moves to `ResetSent`.  `Closed` and
`ResetSent` ignore the call; `Invalid` is an illegal transition. -/
def sendRstSMHandler (stream : QuicStreamState) (m : StreamManagerState)
    (errorCode : Nat) (reliableSize : Option Nat) :
    HandlerResult (QuicStreamState × StreamManagerState) :=
  match stream.sendState with
  | StreamSendState.Open =>
    if (match reliableSize, stream.reliableSizeToPeer with
        | some rs, some prior => decide (prior < rs)
        | _, _ => false) then
      HandlerResult.fatal "It is illegal to increase the reliable size"
    else if (match stream.appErrorCodeToPeer with
        | some prior => decide (prior ≠ errorCode)
        | none => false) then
      HandlerResult.fatal "Cannot change application error code in a reset"
    else if (stream.reliableSizeToPeer = none ∧
        stream.sendState = StreamSendState.ResetSent ∧
        ¬(reliableSize = none ∨ reliableSize = some 0) : Bool) then
      HandlerResult.fatal
        "RESET_STREAM frame was previously sent, and we are increasing the reliable size"
    else
      let stream1 := { stream with appErrorCodeToPeer := some errorCode }
      let stream2 := resetQuicStream stream1 reliableSize
      let m1 := appendPendingStreamReset m stream2.id errorCode reliableSize
      let stream3 := { stream2 with sendState := StreamSendState.ResetSent }
      HandlerResult.ok (stream3, m1)
  | StreamSendState.Closed => HandlerResult.ok (stream, m)
  | StreamSendState.ResetSent => HandlerResult.ok (stream, m)
  | StreamSendState.Invalid =>
    HandlerResult.error (invalidTransitionError stream.sendState)

/-- Buffer-cleanup phase of `sendAckSMHandler`: find the acked chunk by
offset in the buffer selected by `fromBufMeta`; when found, the frame
must match the chunk exactly (`CHECK_EQ`s on offset, length, fin), the
acked intervals are extended with the chunk and the chunk is erased. -/
def ackCleanup (stream : QuicStreamState) (ackedFrame : WriteStreamFrame) :
    HandlerResult QuicStreamState :=
  if !ackedFrame.fromBufMeta then
    match findEntry stream.retransmissionBuffer ackedFrame.offset with
    | some e =>
      if !(decide (ackedFrame.offset = e.2.offset) &&
          decide (ackedFrame.len = e.2.len) &&
          (ackedFrame.fin == e.2.eof)) then
        HandlerResult.fatal "acked frame does not match retransmission buffer"
      else
        HandlerResult.ok { stream with
          ackedIntervals :=
            updateAckedIntervals stream.ackedIntervals e.2.offset e.2.len
              e.2.eof
          retransmissionBuffer :=
            eraseEntry stream.retransmissionBuffer ackedFrame.offset }
    | none => HandlerResult.ok stream
  else
    match findEntry stream.retransmissionBufMetas ackedFrame.offset with
    | some e =>
      if !(decide (ackedFrame.offset = e.2.offset) &&
          decide (ackedFrame.len = e.2.length) &&
          (ackedFrame.fin == e.2.eof)) then
        HandlerResult.fatal "acked frame does not match retransmission buf metas"
      else
        HandlerResult.ok { stream with
          ackedIntervals :=
            updateAckedIntervals stream.ackedIntervals e.2.offset e.2.length
              e.2.eof
          retransmissionBufMetas :=
            eraseEntry stream.retransmissionBufMetas ackedFrame.offset }
    | none => HandlerResult.ok stream

/-- `sendAckSMHandler`: in `Open` or `ResetSent`, clean up the acked
chunk, mark the stream deliverable, and close when all bytes through
FIN are acked or all reliable data of some peer-acked reset is
delivered. -/
def sendAckSMHandler (stream : QuicStreamState) (m : StreamManagerState)
    (ackedFrame : WriteStreamFrame) :
    HandlerResult (QuicStreamState × StreamManagerState) :=
  match stream.sendState with
  | StreamSendState.Open | StreamSendState.ResetSent =>
    (match ackCleanup stream ackedFrame with
     | HandlerResult.fatal msg => HandlerResult.fatal msg
     | HandlerResult.error e => HandlerResult.error e
     | HandlerResult.ok stream1 =>
       let m1 := addDeliverable m stream1.id
       let allReliableDataDelivered :=
         match stream1.minReliableSizeAcked with
         | some mra => decide (mra = 0) || allBytesAckedTill stream1 (mra - 1)
         | none => false
       if allBytesTillFinAcked stream1 || allReliableDataDelivered then
         let stream2 := { stream1 with sendState := StreamSendState.Closed }
         let m2 :=
           if inTerminalStates stream2 then addClosed m1 stream2.id else m1
         HandlerResult.ok (stream2, m2)
       else
         HandlerResult.ok (stream1, m1))
  | StreamSendState.Closed => HandlerResult.ok (stream, m)
  | StreamSendState.Invalid =>
    HandlerResult.error (invalidTransitionError stream.sendState)

/-- `sendRstAckSMHandler`: ack of a RESET_STREAM / RESET_STREAM_AT.  In
`ResetSent`, fold the received reliable size (absent counts as 0) into
`minReliableSizeAcked` by minimum, and close when it is 0 or all bytes
below it are acked.  `Closed` discards the ack; `Open` and `Invalid`
are illegal transitions. -/
def sendRstAckSMHandler (stream : QuicStreamState) (m : StreamManagerState)
    (reliableSize : Option Nat) :
    HandlerResult (QuicStreamState × StreamManagerState) :=
  match stream.sendState with
  | StreamSendState.ResetSent =>
    let newMin :=
      match stream.minReliableSizeAcked with
      | none => reliableSize.getD 0
      | some old => min old (reliableSize.getD 0)
    let stream1 := { stream with minReliableSizeAcked := some newMin }
    if decide (newMin = 0) || allBytesAckedTill stream1 (newMin - 1) then
      let stream2 := { stream1 with sendState := StreamSendState.Closed }
      let m1 := if inTerminalStates stream2 then addClosed m stream2.id else m
      HandlerResult.ok (stream2, m1)
    else
      HandlerResult.ok (stream1, m)
  | StreamSendState.Closed => HandlerResult.ok (stream, m)
  | StreamSendState.Open =>
    HandlerResult.error (invalidTransitionError stream.sendState)
  | StreamSendState.Invalid =>
    HandlerResult.error (invalidTransitionError stream.sendState)

/-- The stream of a successful handler result. -/
def okStream (r : HandlerResult (QuicStreamState × StreamManagerState)) :
    Option QuicStreamState :=
  match r with
  | HandlerResult.ok p => some p.1
  | _ => none

/-- The manager state of a successful handler result. -/
def okManager (r : HandlerResult (QuicStreamState × StreamManagerState)) :
    Option StreamManagerState :=
  match r with
  | HandlerResult.ok p => some p.2
  | _ => none

/-- The merged minimum reliable size of the claim: the minimum of the
existing value and the received one, an absent received size counting
as 0 and an absent existing value being replaced by the received one. -/
def mergedMinReliable (existing received : Option Nat) : Nat :=
  match existing with
  | none => received.getD 0
  | some old => min old (received.getD 0)

/-- C3 (confirmed): in `ResetSent`, the reset-ack handler succeeds,
sets `minReliableSizeAcked` to the merged minimum, and moves to
`Closed` exactly when that minimum is 0 or every byte up to the minimum
minus one is acked; otherwise the stream stays in `ResetSent`. -/
theorem sendRstAck_merges_min_and_closes_iff_delivered
    (stream : QuicStreamState) (m : StreamManagerState)
    (rs : Option Nat) (h : stream.sendState = StreamSendState.ResetSent) :
    (okStream (sendRstAckSMHandler stream m rs)).map
        QuicStreamState.minReliableSizeAcked =
      some (some (mergedMinReliable stream.minReliableSizeAcked rs)) ∧
    ((okStream (sendRstAckSMHandler stream m rs)).map
        QuicStreamState.sendState = some StreamSendState.Closed ↔
      (mergedMinReliable stream.minReliableSizeAcked rs = 0 ∨
        allBytesAckedTill stream
          (mergedMinReliable stream.minReliableSizeAcked rs - 1) = true)) ∧
    ((okStream (sendRstAckSMHandler stream m rs)).map
        QuicStreamState.sendState = some StreamSendState.Closed ∨
      (okStream (sendRstAckSMHandler stream m rs)).map
        QuicStreamState.sendState = some StreamSendState.ResetSent) := by
  rcases hmin : stream.minReliableSizeAcked with _ | old <;>
    simp only [sendRstAckSMHandler, h, hmin] <;>
    split
  case isTrue hc =>
    have hc2 : mergedMinReliable none rs = 0 ∨
        allBytesAckedTill stream (mergedMinReliable none rs - 1) = true := by
      simpa [allBytesAckedTill, mergedMinReliable] using hc
    exact ⟨rfl, iff_of_true rfl hc2, Or.inl rfl⟩
  case isFalse hc =>
    have hc2 : ¬(mergedMinReliable none rs = 0 ∨
        allBytesAckedTill stream (mergedMinReliable none rs - 1) = true) := by
      simpa [allBytesAckedTill, mergedMinReliable] using hc
    refine ⟨rfl, iff_of_false ?_ hc2, Or.inr rfl⟩
    intro hcl
    simp only [okStream, Option.map] at hcl
    exact absurd (Option.some.inj hcl) (by simp)
  case isTrue hc =>
    have hc2 : mergedMinReliable (some old) rs = 0 ∨
        allBytesAckedTill stream (mergedMinReliable (some old) rs - 1) =
          true := by
      simpa [allBytesAckedTill, mergedMinReliable] using hc
    exact ⟨rfl, iff_of_true rfl hc2, Or.inl rfl⟩
  case isFalse hc =>
    have hc2 : ¬(mergedMinReliable (some old) rs = 0 ∨
        allBytesAckedTill stream (mergedMinReliable (some old) rs - 1) =
          true) := by
      simpa [allBytesAckedTill, mergedMinReliable] using hc
    refine ⟨rfl, iff_of_false ?_ hc2, Or.inr rfl⟩
    intro hcl
    simp only [okStream, Option.map] at hcl
    exact absurd (Option.some.inj hcl) (by simp)

/-- An empty stream-manager state. -/
def mgr0 : StreamManagerState := ⟨[], [], [], []⟩

/-- Scenario S4: a stream in `ResetSent` with `reliableSizeToPeer = 50`
and bytes 0 through 49 acked. -/
def c3StreamAcked49 : QuicStreamState :=
  { id := 0, nodeType := QuicNodeType.Client,
    sendState := StreamSendState.ResetSent,
    recvState := StreamRecvState.Open, finalWriteOffset := none,
    appErrorCodeToPeer := some 9, reliableSizeToPeer := some 50,
    minReliableSizeAcked := none, ackedIntervals := [(0, 49)],
    retransmissionBuffer := [], retransmissionBufMetas := [] }

/-- Scenario S4, second half: only bytes 0 through 40 acked. -/
def c3StreamAcked40 : QuicStreamState :=
  { c3StreamAcked49 with ackedIntervals := [(0, 40)] }

/-- Witness for C3 at the S4 scenario: a reset ack with reliable size 50
closes the stream when bytes 0–49 are acked and leaves it in
`ResetSent` when only bytes 0–40 are. -/
theorem sendRstAck_merges_min_witness :
    (okStream (sendRstAckSMHandler c3StreamAcked49 mgr0 (some 50))).map
      QuicStreamState.sendState = some StreamSendState.Closed ∧
    (okStream (sendRstAckSMHandler c3StreamAcked40 mgr0 (some 50))).map
      QuicStreamState.sendState = some StreamSendState.ResetSent := by
  constructor
  · exact (sendRstAck_merges_min_and_closes_iff_delivered c3StreamAcked49 mgr0
      (some 50) rfl).2.1.mpr (Or.inr (by decide))
  · have h := sendRstAck_merges_min_and_closes_iff_delivered c3StreamAcked40
      mgr0 (some 50) rfl
    rcases h.2.2 with hc | hr
    · exact absurd (h.2.1.mp hc) (by decide)
    · exact hr

/-- C4 (confirmed): with `sendState = Invalid` each of the four
send-side handlers returns a `STREAM_STATE_ERROR`, and the reset-ack
handler does so from `Open` as well.  The error return carries no
updated state: the source returns before any mutation, so the stream is
unchanged. -/
theorem streamSend_invalid_transitions_error
    (stream : QuicStreamState) (m : StreamManagerState)
    (frame : StopSendingFrame) (ec : Nat) (rs : Option Nat)
    (af : WriteStreamFrame) :
    (stream.sendState = StreamSendState.Invalid →
      errorCodeOf (sendStopSendingSMHandler stream m frame) =
        some TransportErrorCode.STREAM_STATE_ERROR ∧
      errorCodeOf (sendRstSMHandler stream m ec rs) =
        some TransportErrorCode.STREAM_STATE_ERROR ∧
      errorCodeOf (sendAckSMHandler stream m af) =
        some TransportErrorCode.STREAM_STATE_ERROR ∧
      errorCodeOf (sendRstAckSMHandler stream m rs) =
        some TransportErrorCode.STREAM_STATE_ERROR) ∧
    (stream.sendState = StreamSendState.Open →
      errorCodeOf (sendRstAckSMHandler stream m rs) =
        some TransportErrorCode.STREAM_STATE_ERROR) := by
  constructor
  · intro h
    refine ⟨?_, ?_, ?_, ?_⟩ <;>
      simp [sendStopSendingSMHandler, sendRstSMHandler, sendAckSMHandler,
        sendRstAckSMHandler, h, errorCodeOf, invalidTransitionError]
  · intro h
    simp [sendRstAckSMHandler, h, errorCodeOf, invalidTransitionError]

/-- A stream whose send half does not exist. -/
def invalidSendStream : QuicStreamState :=
  { id := 3, nodeType := QuicNodeType.Client,
    sendState := StreamSendState.Invalid,
    recvState := StreamRecvState.Open, finalWriteOffset := none,
    appErrorCodeToPeer := none, reliableSizeToPeer := none,
    minReliableSizeAcked := none, ackedIntervals := [],
    retransmissionBuffer := [], retransmissionBufMetas := [] }

/-- A stream in send state `Open`. -/
def openSendStream : QuicStreamState :=
  { invalidSendStream with id := 0, sendState := StreamSendState.Open }

/-- Witness for C4 at concrete streams. -/
theorem streamSend_invalid_transitions_error_witness :
    errorCodeOf (sendStopSendingSMHandler invalidSendStream mgr0 ⟨7⟩) =
      some TransportErrorCode.STREAM_STATE_ERROR ∧
    errorCodeOf (sendRstAckSMHandler openSendStream mgr0 none) =
      some TransportErrorCode.STREAM_STATE_ERROR :=
  ⟨((streamSend_invalid_transitions_error invalidSendStream mgr0 ⟨7⟩ 3 none
      ⟨0, 0, false, false⟩).1 rfl).1,
   (streamSend_invalid_transitions_error openSendStream mgr0 ⟨7⟩ 3 none
      ⟨0, 0, false, false⟩).2 rfl⟩

/-- Run a sequence of local resets (`sendRstSMHandler` calls); a fatal
`CHECK` aborts the run, an error return leaves state unchanged and the
run continues. -/
def runResets (stream : QuicStreamState) (m : StreamManagerState) :
    List (Nat × Option Nat) →
      Option (QuicStreamState × StreamManagerState)
  | [] => some (stream, m)
  | op :: rest =>
    match sendRstSMHandler stream m op.1 op.2 with
    | HandlerResult.fatal _ => none
    | HandlerResult.error _ => runResets stream m rest
    | HandlerResult.ok p => runResets p.1 p.2 rest

/-- From any state other than `Open`, a reset is a no-op (or an error,
which also leaves state unchanged), so a whole run preserves the
state. -/
theorem runResets_nonOpen :
    ∀ (ops : List (Nat × Option Nat)) (stream : QuicStreamState)
      (m : StreamManagerState) (s2 : QuicStreamState)
      (m2 : StreamManagerState),
      stream.sendState ≠ StreamSendState.Open →
      runResets stream m ops = some (s2, m2) → s2 = stream ∧ m2 = m := by
  intro ops
  induction ops with
  | nil =>
    intro stream m s2 m2 _ h
    simp only [runResets, Option.some.injEq, Prod.mk.injEq] at h
    exact ⟨h.1.symm, h.2.symm⟩
  | cons op rest ih =>
    intro stream m s2 m2 hno h
    rcases hst : stream.sendState with _ | _ | _ | _
    · exact absurd hst hno
    · simp only [runResets, sendRstSMHandler, hst] at h
      exact ih stream m s2 m2 hno h
    · simp only [runResets, sendRstSMHandler, hst] at h
      exact ih stream m s2 m2 hno h
    · simp only [runResets, sendRstSMHandler, hst] at h
      exact ih stream m s2 m2 hno h

/-- Along any non-fatal run of resets the recorded reliable size never
grows between two states where it is set, and a set application error
code never changes. -/
theorem runResets_monotone :
    ∀ (ops : List (Nat × Option Nat)) (stream : QuicStreamState)
      (m : StreamManagerState) (s2 : QuicStreamState)
      (m2 : StreamManagerState),
      runResets stream m ops = some (s2, m2) →
      (∀ r r2, stream.reliableSizeToPeer = some r →
        s2.reliableSizeToPeer = some r2 → r2 ≤ r) ∧
      (∀ a, stream.appErrorCodeToPeer = some a →
        s2.appErrorCodeToPeer = some a) := by
  intro ops
  induction ops with
  | nil =>
    intro stream m s2 m2 h
    simp only [runResets, Option.some.injEq, Prod.mk.injEq] at h
    obtain ⟨h1, _⟩ := h
    subst h1
    constructor
    · intro r r2 ha hb
      rw [ha] at hb
      exact le_of_eq (Option.some.inj hb).symm
    · intro a ha
      exact ha
  | cons op rest ih =>
    intro stream m s2 m2 h
    rcases hst : stream.sendState with _ | _ | _ | _
    · -- Open: the only mutating case
      simp only [runResets, sendRstSMHandler, hst] at h
      by_cases hv1 : (match op.2, stream.reliableSizeToPeer with
          | some rs, some prior => decide (prior < rs)
          | _, _ => false) = true
      · rw [if_pos hv1] at h
        cases h
      · rw [if_neg hv1] at h
        by_cases hv2 : (match stream.appErrorCodeToPeer with
            | some prior => decide (prior ≠ op.1)
            | none => false) = true
        · rw [if_pos hv2] at h
          cases h
        · rw [if_neg hv2] at h
          rw [if_neg (by simp [hst])] at h
          have hrest := runResets_nonOpen rest _ _ s2 m2 (by simp) h
          obtain ⟨hs2, _⟩ := hrest
          subst hs2
          constructor
          · intro r r2 ha hb
            simp only [resetQuicStream] at hb
            rcases hop : op.2 with _ | rs
            · rw [hop] at hb
              cases hb
            · rw [hop] at hb
              rw [hop, ha] at hv1
              simp only [decide_eq_true_eq] at hv1
              have := Option.some.inj hb
              omega
          · intro a ha
            rw [ha] at hv2
            simp only [ne_eq, decide_not, Bool.not_eq_true',
              decide_eq_false_iff_not, Decidable.not_not] at hv2
            simp only [resetQuicStream]
            rw [← hv2]
    · simp only [runResets, sendRstSMHandler, hst] at h
      exact ih stream m s2 m2 h
    · simp only [runResets, sendRstSMHandler, hst] at h
      exact ih stream m s2 m2 h
    · simp only [runResets, sendRstSMHandler, hst] at h
      exact ih stream m s2 m2 h

/-- C5 (confirmed): across every non-fatal sequence of local resets the
recorded `reliableSizeToPeer` never increases; `appErrorCodeToPeer` is
write-once (once set it never changes, and in `Open` a reset carrying a
different error code, or a larger reliable size, dies on a fatal
check); and a successful reset from `Open` records the error code and
the reliable size and moves the stream to `ResetSent`. -/
theorem sendRst_monotone_and_write_once :
    (∀ (ops : List (Nat × Option Nat)) (stream : QuicStreamState)
        (m : StreamManagerState) (s2 : QuicStreamState)
        (m2 : StreamManagerState),
      runResets stream m ops = some (s2, m2) →
      (∀ r r2, stream.reliableSizeToPeer = some r →
        s2.reliableSizeToPeer = some r2 → r2 ≤ r) ∧
      (∀ a, stream.appErrorCodeToPeer = some a →
        s2.appErrorCodeToPeer = some a)) ∧
    (∀ (stream : QuicStreamState) (m : StreamManagerState) (ec : Nat)
        (rs : Option Nat),
      stream.sendState = StreamSendState.Open →
      (∀ a, stream.appErrorCodeToPeer = some a → a ≠ ec →
        isFatalResult (sendRstSMHandler stream m ec rs) = true) ∧
      (∀ p r, stream.reliableSizeToPeer = some p → rs = some r → p < r →
        isFatalResult (sendRstSMHandler stream m ec rs) = true)) ∧
    (∀ (stream : QuicStreamState) (m : StreamManagerState) (ec : Nat)
        (rs : Option Nat) (s3 : QuicStreamState) (m3 : StreamManagerState),
      stream.sendState = StreamSendState.Open →
      sendRstSMHandler stream m ec rs = HandlerResult.ok (s3, m3) →
      s3.appErrorCodeToPeer = some ec ∧
        s3.sendState = StreamSendState.ResetSent ∧
        s3.reliableSizeToPeer = rs) := by
  refine ⟨runResets_monotone, ?_, ?_⟩
  · intro stream m ec rs h
    constructor
    · intro a ha hne
      simp only [sendRstSMHandler, h]
      by_cases hv1 : (match rs, stream.reliableSizeToPeer with
          | some rsv, some prior => decide (prior < rsv)
          | _, _ => false) = true
      · rw [if_pos hv1]
        rfl
      · rw [if_neg hv1, if_pos (by rw [ha]; simpa using hne)]
        rfl
    · intro p r hp hr hlt
      simp only [sendRstSMHandler, h]
      rw [if_pos (by rw [hr, hp]; simpa using hlt)]
      rfl
  · intro stream m ec rs s3 m3 h hok
    simp only [sendRstSMHandler, h] at hok
    split at hok
    · simp at hok
    · split at hok
      · simp at hok
      · split at hok
        · simp at hok
        · simp only [HandlerResult.ok.injEq, Prod.mk.injEq] at hok
          obtain ⟨hs, _⟩ := hok
          subst hs
          exact ⟨rfl, rfl, rfl⟩

/-- An open stream carrying a previously recorded error code and
reliable size. -/
def c5Stream : QuicStreamState :=
  { openSendStream with
    appErrorCodeToPeer := some 5
    reliableSizeToPeer := some 20 }

/-- The stream after a successful reset of `c5Stream` with error code 5
and reliable size 10. -/
def c5After : QuicStreamState :=
  { c5Stream with
    reliableSizeToPeer := some 10
    sendState := StreamSendState.ResetSent }

/-- The manager after that reset enqueued the RESET_STREAM_AT frame. -/
def c5Mgr : StreamManagerState := ⟨[], [], [], [(0, 5, some 10)]⟩

/-- Witness for C5 at concrete inputs: the run lowers the reliable size
20 → 10 and keeps error code 5; a differing error code (7) and a larger
reliable size (30) each die on the fatal check; the successful reset
lands in `ResetSent`. -/
theorem sendRst_monotone_and_write_once_witness :
    (10 : Nat) ≤ 20 ∧
    c5After.appErrorCodeToPeer = some 5 ∧
    isFatalResult (sendRstSMHandler c5Stream mgr0 7 (some 10)) = true ∧
    isFatalResult (sendRstSMHandler c5Stream mgr0 5 (some 30)) = true ∧
    c5After.sendState = StreamSendState.ResetSent := by
  refine ⟨?_, ?_, ?_, ?_, ?_⟩
  · exact (sendRst_monotone_and_write_once.1 [(5, some 10)] c5Stream mgr0
      c5After c5Mgr (by decide)).1 20 10 rfl rfl
  · exact (sendRst_monotone_and_write_once.1 [(5, some 10)] c5Stream mgr0
      c5After c5Mgr (by decide)).2 5 rfl
  · exact (sendRst_monotone_and_write_once.2.1 c5Stream mgr0 7 (some 10)
      rfl).1 5 rfl (by decide)
  · exact (sendRst_monotone_and_write_once.2.1 c5Stream mgr0 5 (some 30)
      rfl).2 20 30 rfl rfl (by decide)
  · exact (sendRst_monotone_and_write_once.2.2 c5Stream mgr0 5 (some 10)
      c5After c5Mgr rfl (by decide)).2.1

/-- Behavior of `sendAckSMHandler` after the buffer-cleanup phase
produced `stream1`: the handler succeeds with the cleaned stream, marks
it deliverable, and closes exactly when all bytes through FIN are acked
or all reliable bytes of some peer-acked reset are. -/
theorem sendAck_after_cleanup (stream stream1 : QuicStreamState)
    (m : StreamManagerState) (af : WriteStreamFrame)
    (hstate : stream.sendState = StreamSendState.Open ∨
      stream.sendState = StreamSendState.ResetSent)
    (hclean : ackCleanup stream af = HandlerResult.ok stream1)
    (hid : stream1.id = stream.id)
    (hmin : stream1.minReliableSizeAcked = stream.minReliableSizeAcked)
    (hsend1 : stream1.sendState = stream.sendState) :
    (okStream (sendAckSMHandler stream m af)).map
        QuicStreamState.ackedIntervals = some stream1.ackedIntervals ∧
    (okStream (sendAckSMHandler stream m af)).map
        QuicStreamState.retransmissionBuffer =
      some stream1.retransmissionBuffer ∧
    (okStream (sendAckSMHandler stream m af)).map
        QuicStreamState.retransmissionBufMetas =
      some stream1.retransmissionBufMetas ∧
    (okManager (sendAckSMHandler stream m af)).map
        StreamManagerState.deliverableStreams =
      some (m.deliverableStreams ++ [stream.id]) ∧
    ((okStream (sendAckSMHandler stream m af)).map
        QuicStreamState.sendState = some StreamSendState.Closed ↔
      (allBytesTillFinAcked stream1 = true ∨
        ∃ mra, stream.minReliableSizeAcked = some mra ∧
          (mra = 0 ∨ allBytesAckedTill stream1 (mra - 1) = true))) := by
  rcases hstate with hs | hs <;>
    simp only [sendAckSMHandler, hs, hclean] <;>
    split
  · next hc =>
    refine ⟨rfl, rfl, rfl, ?_, iff_of_true rfl ?_⟩
    · simp only [okManager, Option.map]
      split <;> simp [addClosed, addDeliverable, hid]
    · rw [Bool.or_eq_true] at hc
      rcases hc with hfin2 | hrel
      · exact Or.inl hfin2
      · rcases hmm : stream1.minReliableSizeAcked with _ | mra <;>
          simp only [hmm] at hrel
        · exact absurd hrel (by simp)
        · rw [Bool.or_eq_true, decide_eq_true_eq] at hrel
          exact Or.inr ⟨mra, by rw [← hmin, hmm], hrel⟩
  · next hc =>
    refine ⟨rfl, rfl, rfl, ?_, iff_of_false ?_ ?_⟩
    · simp [okManager, Option.map, addDeliverable, hid]
    · intro hcl
      simp only [okStream, Option.map, Option.some.injEq] at hcl
      rw [hsend1, hs] at hcl
      exact absurd hcl (by simp)
    · intro hor
      apply hc
      rw [Bool.or_eq_true]
      rcases hor with hfin2 | ⟨mra, hmm, hor2⟩
      · exact Or.inl hfin2
      · right
        have hmm1 : stream1.minReliableSizeAcked = some mra := by
          rw [hmin, hmm]
        simp only [hmm1]
        rw [Bool.or_eq_true, decide_eq_true_eq]
        exact hor2
  · next hc =>
    refine ⟨rfl, rfl, rfl, ?_, iff_of_true rfl ?_⟩
    · simp only [okManager, Option.map]
      split <;> simp [addClosed, addDeliverable, hid]
    · rw [Bool.or_eq_true] at hc
      rcases hc with hfin2 | hrel
      · exact Or.inl hfin2
      · rcases hmm : stream1.minReliableSizeAcked with _ | mra <;>
          simp only [hmm] at hrel
        · exact absurd hrel (by simp)
        · rw [Bool.or_eq_true, decide_eq_true_eq] at hrel
          exact Or.inr ⟨mra, by rw [← hmin, hmm], hrel⟩
  · next hc =>
    refine ⟨rfl, rfl, rfl, ?_, iff_of_false ?_ ?_⟩
    · simp [okManager, Option.map, addDeliverable, hid]
    · intro hcl
      simp only [okStream, Option.map, Option.some.injEq] at hcl
      rw [hsend1, hs] at hcl
      exact absurd hcl (by simp)
    · intro hor
      apply hc
      rw [Bool.or_eq_true]
      rcases hor with hfin2 | ⟨mra, hmm, hor2⟩
      · exact Or.inl hfin2
      · right
        have hmm1 : stream1.minReliableSizeAcked = some mra := by
          rw [hmin, hmm]
        simp only [hmm1]
        rw [Bool.or_eq_true, decide_eq_true_eq]
        exact hor2

/-- C6 (confirmed): in `Open` or `ResetSent`, acking a stream frame
whose chunk sits in the buffer selected by `fromBufMeta` (matched by
offset, with matching length and fin) removes that chunk from that
buffer only, records the chunk's bytes as acked, adds the stream to the
deliverable set, and moves to `Closed` exactly when all bytes through
FIN are acked, or `minReliableSizeAcked` is set and is 0 or all bytes
below it are acked. -/
theorem sendAck_removes_chunk_and_closes_iff
    (stream : QuicStreamState) (m : StreamManagerState)
    (af : WriteStreamFrame)
    (hstate : stream.sendState = StreamSendState.Open ∨
      stream.sendState = StreamSendState.ResetSent)
    (hmatch :
      (af.fromBufMeta = false ∧
        findEntry stream.retransmissionBuffer af.offset =
          some (af.offset, ⟨af.offset, af.len, af.fin⟩)) ∨
      (af.fromBufMeta = true ∧
        findEntry stream.retransmissionBufMetas af.offset =
          some (af.offset, ⟨af.offset, af.len, af.fin⟩))) :
    (okStream (sendAckSMHandler stream m af)).map
        QuicStreamState.ackedIntervals =
      some (updateAckedIntervals stream.ackedIntervals af.offset af.len
        af.fin) ∧
    (af.fromBufMeta = false →
      (okStream (sendAckSMHandler stream m af)).map
          QuicStreamState.retransmissionBuffer =
        some (eraseEntry stream.retransmissionBuffer af.offset) ∧
      (okStream (sendAckSMHandler stream m af)).map
          QuicStreamState.retransmissionBufMetas =
        some stream.retransmissionBufMetas) ∧
    (af.fromBufMeta = true →
      (okStream (sendAckSMHandler stream m af)).map
          QuicStreamState.retransmissionBufMetas =
        some (eraseEntry stream.retransmissionBufMetas af.offset) ∧
      (okStream (sendAckSMHandler stream m af)).map
          QuicStreamState.retransmissionBuffer =
        some stream.retransmissionBuffer) ∧
    (okManager (sendAckSMHandler stream m af)).map
        StreamManagerState.deliverableStreams =
      some (m.deliverableStreams ++ [stream.id]) ∧
    ((okStream (sendAckSMHandler stream m af)).map
        QuicStreamState.sendState = some StreamSendState.Closed ↔
      (allBytesTillFinAcked { stream with
          ackedIntervals := updateAckedIntervals stream.ackedIntervals
            af.offset af.len af.fin } = true ∨
        ∃ mra, stream.minReliableSizeAcked = some mra ∧
          (mra = 0 ∨ allBytesAckedTill { stream with
              ackedIntervals := updateAckedIntervals stream.ackedIntervals
                af.offset af.len af.fin } (mra - 1) = true))) := by
  rcases hmatch with ⟨hbm, hfind⟩ | ⟨hbm, hfind⟩
  · have hclean : ackCleanup stream af = HandlerResult.ok { stream with
        ackedIntervals := updateAckedIntervals stream.ackedIntervals
          af.offset af.len af.fin
        retransmissionBuffer :=
          eraseEntry stream.retransmissionBuffer af.offset } := by
      simp [ackCleanup, hbm, hfind]
    have h := sendAck_after_cleanup stream _ m af hstate hclean rfl rfl rfl
    refine ⟨h.1, fun _ => ⟨h.2.1, h.2.2.1⟩, ?_, h.2.2.2.1, h.2.2.2.2⟩
    intro hbt
    rw [hbm] at hbt
    exact absurd hbt (by simp)
  · have hclean : ackCleanup stream af = HandlerResult.ok { stream with
        ackedIntervals := updateAckedIntervals stream.ackedIntervals
          af.offset af.len af.fin
        retransmissionBufMetas :=
          eraseEntry stream.retransmissionBufMetas af.offset } := by
      simp [ackCleanup, hbm, hfind]
    have h := sendAck_after_cleanup stream _ m af hstate hclean rfl rfl rfl
    refine ⟨h.1, ?_, fun _ => ⟨h.2.2.1, h.2.1⟩, h.2.2.2.1, h.2.2.2.2⟩
    intro hbt
    rw [hbm] at hbt
    exact absurd hbt (by simp)

/-- An open stream with one retransmission chunk of 10 bytes carrying
FIN at offset 0. -/
def c6Stream : QuicStreamState :=
  { openSendStream with
    finalWriteOffset := some 10
    retransmissionBuffer := [(0, ⟨0, 10, true⟩)] }

/-- Witness for C6: acking that chunk empties the retransmission buffer
and closes the stream (all bytes through FIN are then acked). -/
theorem sendAck_removes_chunk_witness :
    (okStream (sendAckSMHandler c6Stream mgr0 ⟨0, 10, true, false⟩)).map
      QuicStreamState.retransmissionBuffer = some [] ∧
    (okStream (sendAckSMHandler c6Stream mgr0 ⟨0, 10, true, false⟩)).map
      QuicStreamState.sendState = some StreamSendState.Closed := by
  have h := sendAck_removes_chunk_and_closes_iff c6Stream mgr0
    ⟨0, 10, true, false⟩ (Or.inl rfl) (Or.inl ⟨rfl, by decide⟩)
  exact ⟨((h.2.1 rfl).1).trans (by decide),
    h.2.2.2.2.mpr (Or.inl (by decide))⟩

/- ===================================================================
   Part 3: Client connection state machine
   (quic/client/state/ClientStateMachine.cpp)
   =================================================================== -/

/-- Packet number spaces. -/
inductive PacketNumberSpace where
  | Initial
  | Handshake
  | AppData
deriving DecidableEq, Repr

/-- Packet protection types (the ones the retry filter distinguishes
plus the rest). -/
inductive ProtectionType where
  | Initial
  | Handshake
  | ZeroRtt
  | KeyPhaseZero
  | KeyPhaseOne
deriving DecidableEq, Repr

/-- An outstanding packet: the header fields the retry undo reads (its
number space and protection type), a lost flag, and an opaque tag that
distinguishes packets. -/
structure OutstandingPacket where
  space : PacketNumberSpace
  protection : ProtectionType
  declaredLost : Bool
  tag : Nat
deriving DecidableEq, Repr

/-- QUIC versions: v1, its aliases, the priming version, or any
other. -/
inductive QuicVersion where
  | QUIC_V1
  | QUIC_V1_ALIAS
  | QUIC_V1_ALIAS2
  | MVFST_PRIMING
  | Other (n : Nat)
deriving DecidableEq, Repr

/-- The transport settings the client state machine reads.  Settings it
copies wholesale are folded into `otherSettings`. -/
structure TransportSettings where
  maxPacketsToBuffer : Nat
  maybeAckReceiveTimestampsConfigSentToPeer : Option Nat
  advertisedExtendedAckFeatures : Nat
  canIgnorePathMTU : Bool
  maxReceiveTimestampsPerAckStored : Nat
  advertisedInitialUniStreamFlowControlWindow : Nat
  advertisedInitialBidiLocalStreamFlowControlWindow : Nat
  advertisedInitialBidiRemoteStreamFlowControlWindow : Nat
  otherSettings : Nat
deriving DecidableEq, Repr

/-- The pieces of `QuicReadCodec` the client state machine writes or
reads: node type, connection ids and the codec parameters installed via
`setCodecParameters`. -/
structure QuicReadCodec where
  nodeType : QuicNodeType
  clientConnectionId : Option (List Nat)
  serverConnectionId : Option (List Nat)
  peerAckDelayExponent : Nat
  version : QuicVersion
  ackReceiveTimestamps : Option Nat
  extendedAckFeatures : Nat
deriving DecidableEq, Repr

/-- A congestion controller, identified by its algorithm type. -/
structure CongestionController where
  ctype : Nat
deriving DecidableEq, Repr

/-- Connection-level flow control state. -/
structure FlowControlState where
  peerAdvertisedMaxOffset : Nat
  peerAdvertisedInitialMaxStreamOffsetBidiLocal : Nat
  peerAdvertisedInitialMaxStreamOffsetBidiRemote : Nat
  peerAdvertisedInitialMaxStreamOffsetUni : Nat
  otherFlowControl : Nat
deriving DecidableEq, Repr

/-- Modelled from the spec: the stream-manager pieces the client state
machine touches — the max local stream counts and, for every
pre-existing stream, its advertised flow-control window (updated after
parameter ingestion). -/
structure QuicStreamManager where
  maxLocalBidirectionalStreams : Nat
  maxLocalUnidirectionalStreams : Nat
  streams : List (Nat × Nat)
deriving DecidableEq, Repr

/-- Negotiated ack-receive-timestamps configuration. -/
structure AckReceiveTimestampsConfig where
  maxReceiveTimestampsPerAck : Nat
  receiveTimestampsExponent : Nat
deriving DecidableEq, Repr

/-- The client connection state: the fields `ClientStateMachine.cpp`
reads or writes, plus `pendingEvents` as a representative of the state
the retry undo drops.  Fields whose structure the code copies wholesale
(addresses, loss state, happy-eyeballs state, callbacks, logger,
observers, buffer accessor, factories, ciphers) are opaque `Nat`
values. -/
structure QuicClientConnectionState where
  handshakeFactory : Nat
  observerContainer : Nat
  qLogger : Nat
  nodeType : QuicNodeType
  clientConnectionId : Option (List Nat)
  initialDestinationConnectionId : Option (List Nat)
  originalDestinationConnectionId : Option (List Nat)
  serverConnectionId : Option (List Nat)
  initialNextPacketNum : Nat
  handshakeNextPacketNum : Nat
  appDataNextPacketNum : Nat
  version : Option QuicVersion
  originalVersion : Option QuicVersion
  originalPeerAddress : Nat
  peerAddress : Nat
  udpSendPacketLen : Nat
  supportedVersions : List QuicVersion
  transportSettings : TransportSettings
  initialWriteCipher : Option Nat
  readCodec : QuicReadCodec
  earlyDataAppParamsValidator : Nat
  earlyDataAppParamsGetter : Nat
  happyEyeballsState : Nat
  flowControlState : FlowControlState
  bufAccessor : Nat
  congestionControllerFactory : Option Nat
  congestionController : Option CongestionController
  outstandingPackets : List OutstandingPacket
  outstandingAppDataPacketCount : Nat
  lossState : Nat
  streamManager : QuicStreamManager
  serverInitialParamsSet : Bool
  peerAdvertisedInitialMaxData : Nat
  peerAdvertisedInitialMaxStreamDataBidiLocal : Nat
  peerAdvertisedInitialMaxStreamDataBidiRemote : Nat
  peerAdvertisedInitialMaxStreamDataUni : Nat
  peerAdvertisedInitialMaxStreamsBidi : Nat
  peerAdvertisedInitialMaxStreamsUni : Nat
  peerAdvertisedKnobFrameSupport : Bool
  peerAdvertisedReliableStreamResetSupport : Bool
  peerAdvertisedExtendedAckFeatures : Nat
  peerAdvertisedMaxStreamGroups : Option Nat
  maybePeerAckReceiveTimestampsConfig : Option AckReceiveTimestampsConfig
  peerIdleTimeout : Nat
  peerAckDelayExponent : Nat
  peerMinAckDelay : Option Nat
  peerActiveConnectionIdLimit : Nat
  statelessResetToken : Option Nat
  datagramMaxWriteFrameSize : Nat
  pendingOneRttDataCapacity : Nat
  pendingEvents : Nat
deriving DecidableEq, Repr

/-- Modelled from the spec: a freshly constructed
`QuicClientConnectionState` holding only the given handshake factory
(the constructor's member defaults live in headers outside the files in
scope; these defaults stand for the state a retry drops). -/
def freshClientConn (handshakeFactory : Nat) : QuicClientConnectionState :=
  { handshakeFactory := handshakeFactory
    observerContainer := 0
    qLogger := 0
    nodeType := QuicNodeType.Client
    clientConnectionId := none
    initialDestinationConnectionId := none
    originalDestinationConnectionId := none
    serverConnectionId := none
    initialNextPacketNum := 0
    handshakeNextPacketNum := 0
    appDataNextPacketNum := 0
    version := none
    originalVersion := none
    originalPeerAddress := 0
    peerAddress := 0
    udpSendPacketLen := 0
    supportedVersions := []
    transportSettings := ⟨0, none, 0, false, 0, 0, 0, 0, 0⟩
    initialWriteCipher := none
    readCodec := ⟨QuicNodeType.Client, none, none, 0,
      QuicVersion.Other 0, none, 0⟩
    earlyDataAppParamsValidator := 0
    earlyDataAppParamsGetter := 0
    happyEyeballsState := 0
    flowControlState := ⟨0, 0, 0, 0, 0⟩
    bufAccessor := 0
    congestionControllerFactory := none
    congestionController := none
    outstandingPackets := []
    outstandingAppDataPacketCount := 0
    lossState := 0
    streamManager := ⟨0, 0, []⟩
    serverInitialParamsSet := false
    peerAdvertisedInitialMaxData := 0
    peerAdvertisedInitialMaxStreamDataBidiLocal := 0
    peerAdvertisedInitialMaxStreamDataBidiRemote := 0
    peerAdvertisedInitialMaxStreamDataUni := 0
    peerAdvertisedInitialMaxStreamsBidi := 0
    peerAdvertisedInitialMaxStreamsUni := 0
    peerAdvertisedKnobFrameSupport := false
    peerAdvertisedReliableStreamResetSupport := false
    peerAdvertisedExtendedAckFeatures := 0
    peerAdvertisedMaxStreamGroups := none
    maybePeerAckReceiveTimestampsConfig := none
    peerIdleTimeout := 0
    peerAckDelayExponent := 0
    peerMinAckDelay := none
    peerActiveConnectionIdLimit := 0
    statelessResetToken := none
    datagramMaxWriteFrameSize := 0
    pendingOneRttDataCapacity := 0
    pendingEvents := 0 }

/-- The loop condition of the retry undo: an AppData-space,
zero-RTT-protected outstanding packet. -/
def isZeroRttAppData (p : OutstandingPacket) : Bool :=
  decide (p.space = PacketNumberSpace.AppData) &&
    decide (p.protection = ProtectionType.ZeroRtt)

/-- Modelled from the spec: `markZeroRttPacketsLost` marks every
zero-RTT-protected outstanding packet lost ("zero-RTT outstandings are
immediately marked lost"; the function lives in the loss module,
outside the files in scope). -/
def markZeroRttPacketsLost (conn : QuicClientConnectionState) :
    QuicClientConnectionState :=
  { conn with
    outstandingPackets := conn.outstandingPackets.map (fun p =>
      if p.protection = ProtectionType.ZeroRtt then
        { p with declaredLost := true }
      else p) }

/-- Modelled from the spec: the factory rebuilds a congestion
controller of the same algorithm type against the new connection
("controller is rebuilt since it referenced the old state"). -/
def makeCongestionController (_factory ctype : Nat) : CongestionController :=
  ⟨ctype⟩

/-- `undoAllClientStateForRetry`: build a fresh connection from the old
handshake factory, copy the fields that survive a stateless retry,
rebuild the read codec from the old connection's client CID, ack-delay
exponent, original version and timestamp/extended-ack settings, rebuild
the congestion controller (same type) when a factory exists, carry over
only the AppData zero-RTT outstandings (counting them), copy loss
state, node type and stream manager, and mark the carried zero-RTT
packets lost.  (`pendingOneRttData.reserve` is modelled as recording
the capacity.) -/
def undoAllClientStateForRetry (conn : QuicClientConnectionState) :
    QuicClientConnectionState :=
  markZeroRttPacketsLost
    { freshClientConn conn.handshakeFactory with
      observerContainer := conn.observerContainer
      qLogger := conn.qLogger
      clientConnectionId := conn.clientConnectionId
      initialDestinationConnectionId := conn.initialDestinationConnectionId
      originalDestinationConnectionId :=
        conn.originalDestinationConnectionId
      serverConnectionId := conn.serverConnectionId
      initialNextPacketNum := conn.initialNextPacketNum
      handshakeNextPacketNum := conn.handshakeNextPacketNum
      appDataNextPacketNum := conn.appDataNextPacketNum
      version := conn.version
      originalVersion := conn.originalVersion
      originalPeerAddress := conn.originalPeerAddress
      peerAddress := conn.peerAddress
      udpSendPacketLen := conn.udpSendPacketLen
      supportedVersions := conn.supportedVersions
      transportSettings := conn.transportSettings
      initialWriteCipher := conn.initialWriteCipher
      readCodec :=
        { nodeType := QuicNodeType.Client
          clientConnectionId := conn.clientConnectionId
          serverConnectionId := none
          peerAckDelayExponent := conn.peerAckDelayExponent
          version := conn.originalVersion.getD (QuicVersion.Other 0)
          ackReceiveTimestamps :=
            conn.transportSettings.maybeAckReceiveTimestampsConfigSentToPeer
          extendedAckFeatures :=
            conn.transportSettings.advertisedExtendedAckFeatures }
      earlyDataAppParamsValidator := conn.earlyDataAppParamsValidator
      earlyDataAppParamsGetter := conn.earlyDataAppParamsGetter
      happyEyeballsState := conn.happyEyeballsState
      flowControlState := conn.flowControlState
      bufAccessor := conn.bufAccessor
      pendingOneRttDataCapacity := conn.transportSettings.maxPacketsToBuffer
      congestionControllerFactory :=
        match conn.congestionControllerFactory with
        | some f => some f
        | none => none
      congestionController :=
        match conn.congestionControllerFactory, conn.congestionController with
        | some f, some cc => some (makeCongestionController f cc.ctype)
        | _, _ => none
      outstandingPackets := conn.outstandingPackets.filter isZeroRttAppData
      outstandingAppDataPacketCount :=
        (conn.outstandingPackets.filter isZeroRttAppData).length
      lossState := conn.lossState
      nodeType := conn.nodeType
      streamManager := conn.streamManager }

/-- Agreement on exactly the state the claim enumerates: the
client/server/original-destination connection ids, per-space next
packet numbers, version and original version, addresses, UDP send
packet length, supported versions, transport settings, initial write
cipher, happy-eyeballs state, flow-control state, buffer accessor,
congestion-controller factory — plus the AppData zero-RTT outstanding
packets. -/
def c2EnumeratedAgree (a b : QuicClientConnectionState) : Prop :=
  a.clientConnectionId = b.clientConnectionId ∧
  a.serverConnectionId = b.serverConnectionId ∧
  a.originalDestinationConnectionId = b.originalDestinationConnectionId ∧
  a.initialNextPacketNum = b.initialNextPacketNum ∧
  a.handshakeNextPacketNum = b.handshakeNextPacketNum ∧
  a.appDataNextPacketNum = b.appDataNextPacketNum ∧
  a.version = b.version ∧
  a.originalVersion = b.originalVersion ∧
  a.originalPeerAddress = b.originalPeerAddress ∧
  a.peerAddress = b.peerAddress ∧
  a.udpSendPacketLen = b.udpSendPacketLen ∧
  a.supportedVersions = b.supportedVersions ∧
  a.transportSettings = b.transportSettings ∧
  a.initialWriteCipher = b.initialWriteCipher ∧
  a.happyEyeballsState = b.happyEyeballsState ∧
  a.flowControlState = b.flowControlState ∧
  a.bufAccessor = b.bufAccessor ∧
  a.congestionControllerFactory = b.congestionControllerFactory ∧
  a.outstandingPackets.filter isZeroRttAppData =
    b.outstandingPackets.filter isZeroRttAppData

/-- Agreement on everything the retry undo actually reads: the
enumerated fields plus the handshake factory, observer container,
qlogger, initial destination CID, peer ack-delay exponent, early-data
callbacks, congestion controller, loss state, node type, and stream
manager. -/
def c2UndoReadAgree (a b : QuicClientConnectionState) : Prop :=
  c2EnumeratedAgree a b ∧
  a.handshakeFactory = b.handshakeFactory ∧
  a.observerContainer = b.observerContainer ∧
  a.qLogger = b.qLogger ∧
  a.initialDestinationConnectionId = b.initialDestinationConnectionId ∧
  a.peerAckDelayExponent = b.peerAckDelayExponent ∧
  a.earlyDataAppParamsValidator = b.earlyDataAppParamsValidator ∧
  a.earlyDataAppParamsGetter = b.earlyDataAppParamsGetter ∧
  a.congestionController = b.congestionController ∧
  a.lossState = b.lossState ∧
  a.nodeType = b.nodeType ∧
  a.streamManager = b.streamManager

/-- A populated client connection about to process a retry. -/
def c2ConnA : QuicClientConnectionState :=
  { freshClientConn 5 with
    clientConnectionId := some [1, 2]
    serverConnectionId := some [3]
    originalDestinationConnectionId := some [4]
    initialDestinationConnectionId := some [4]
    initialNextPacketNum := 7
    appDataNextPacketNum := 9
    version := some QuicVersion.QUIC_V1
    originalVersion := some QuicVersion.QUIC_V1
    udpSendPacketLen := 1252
    lossState := 1
    outstandingPackets :=
      [⟨PacketNumberSpace.AppData, ProtectionType.ZeroRtt, false, 1⟩,
       ⟨PacketNumberSpace.AppData, ProtectionType.ZeroRtt, false, 2⟩,
       ⟨PacketNumberSpace.AppData, ProtectionType.KeyPhaseZero, false, 3⟩,
       ⟨PacketNumberSpace.Initial, ProtectionType.Initial, false, 4⟩] }

/-- `c2ConnA` with a different loss state. -/
def c2ConnB : QuicClientConnectionState := { c2ConnA with lossState := 2 }

/-- `c2ConnA` with different pending events (state the undo drops). -/
def c2ConnC : QuicClientConnectionState := { c2ConnA with pendingEvents := 99 }

/-- C2 counterexample: two connections that agree on every field the
claim enumerates (and on their zero-RTT outstandings) but differ in
loss state produce different retry-undo results — the loss state is
carried over by `newConn->lossState = conn->lossState`, so it is not
true that "all other state is dropped". -/
theorem undoRetry_lossState_not_dropped :
    c2EnumeratedAgree c2ConnA c2ConnB ∧
    undoAllClientStateForRetry c2ConnA ≠ undoAllClientStateForRetry c2ConnB
    := by
  constructor
  · refine ⟨rfl, rfl, rfl, rfl, rfl, rfl, rfl, rfl, rfl, rfl, rfl, rfl, rfl,
      rfl, rfl, rfl, rfl, rfl, rfl⟩
  · decide

/-- C2 (amended): the retry undo preserves the enumerated fields and —
beyond the claim — also the loss state, node type, initial destination
CID, observer container, qlogger, early-data callbacks and stream
manager; its outstanding table is exactly the old AppData zero-RTT
outstandings, all marked lost; and the result depends on nothing else
(everything outside the read set is dropped). -/
theorem undoRetry_preserves_enumerated_and_zeroRtt :
    (∀ conn : QuicClientConnectionState,
      ((undoAllClientStateForRetry conn).clientConnectionId =
          conn.clientConnectionId ∧
        (undoAllClientStateForRetry conn).serverConnectionId =
          conn.serverConnectionId ∧
        (undoAllClientStateForRetry conn).originalDestinationConnectionId =
          conn.originalDestinationConnectionId ∧
        (undoAllClientStateForRetry conn).initialNextPacketNum =
          conn.initialNextPacketNum ∧
        (undoAllClientStateForRetry conn).handshakeNextPacketNum =
          conn.handshakeNextPacketNum ∧
        (undoAllClientStateForRetry conn).appDataNextPacketNum =
          conn.appDataNextPacketNum ∧
        (undoAllClientStateForRetry conn).version = conn.version ∧
        (undoAllClientStateForRetry conn).originalVersion =
          conn.originalVersion ∧
        (undoAllClientStateForRetry conn).originalPeerAddress =
          conn.originalPeerAddress ∧
        (undoAllClientStateForRetry conn).peerAddress = conn.peerAddress ∧
        (undoAllClientStateForRetry conn).udpSendPacketLen =
          conn.udpSendPacketLen ∧
        (undoAllClientStateForRetry conn).supportedVersions =
          conn.supportedVersions ∧
        (undoAllClientStateForRetry conn).transportSettings =
          conn.transportSettings ∧
        (undoAllClientStateForRetry conn).initialWriteCipher =
          conn.initialWriteCipher ∧
        (undoAllClientStateForRetry conn).happyEyeballsState =
          conn.happyEyeballsState ∧
        (undoAllClientStateForRetry conn).flowControlState =
          conn.flowControlState ∧
        (undoAllClientStateForRetry conn).bufAccessor = conn.bufAccessor ∧
        (undoAllClientStateForRetry conn).congestionControllerFactory =
          conn.congestionControllerFactory ∧
        (undoAllClientStateForRetry conn).lossState = conn.lossState ∧
        (undoAllClientStateForRetry conn).nodeType = conn.nodeType ∧
        (undoAllClientStateForRetry conn).initialDestinationConnectionId =
          conn.initialDestinationConnectionId ∧
        (undoAllClientStateForRetry conn).observerContainer =
          conn.observerContainer ∧
        (undoAllClientStateForRetry conn).qLogger = conn.qLogger ∧
        (undoAllClientStateForRetry conn).earlyDataAppParamsValidator =
          conn.earlyDataAppParamsValidator ∧
        (undoAllClientStateForRetry conn).earlyDataAppParamsGetter =
          conn.earlyDataAppParamsGetter ∧
        (undoAllClientStateForRetry conn).streamManager =
          conn.streamManager) ∧
      (undoAllClientStateForRetry conn).outstandingPackets =
        (conn.outstandingPackets.filter isZeroRttAppData).map
          (fun p => { p with declaredLost := true }) ∧
      (∀ p, p ∈ (undoAllClientStateForRetry conn).outstandingPackets →
        p.declaredLost = true ∧ p.space = PacketNumberSpace.AppData ∧
          p.protection = ProtectionType.ZeroRtt)) ∧
    (∀ a b : QuicClientConnectionState, c2UndoReadAgree a b →
      undoAllClientStateForRetry a = undoAllClientStateForRetry b) := by
  have key : ∀ l : List OutstandingPacket,
      (l.filter isZeroRttAppData).map (fun p =>
        if p.protection = ProtectionType.ZeroRtt then
          { p with declaredLost := true }
        else p) =
      (l.filter isZeroRttAppData).map
        (fun p => { p with declaredLost := true }) := by
    intro l
    apply List.map_congr_left
    intro p hp
    have hz := (List.mem_filter.mp hp).2
    simp only [isZeroRttAppData, Bool.and_eq_true, decide_eq_true_eq] at hz
    rw [if_pos hz.2]
  constructor
  · intro conn
    refine ⟨⟨rfl, rfl, rfl, rfl, rfl, rfl, rfl, rfl, rfl, rfl, rfl, rfl, rfl,
      rfl, rfl, rfl, rfl, ?_, rfl, rfl, rfl, rfl, rfl, rfl, rfl, rfl⟩,
      key conn.outstandingPackets, ?_⟩
    · rcases hcf : conn.congestionControllerFactory with _ | f <;>
        simp [undoAllClientStateForRetry, markZeroRttPacketsLost, hcf]
    intro p hp
    rw [show (undoAllClientStateForRetry conn).outstandingPackets =
        (conn.outstandingPackets.filter isZeroRttAppData).map
          (fun p => { p with declaredLost := true })
      from key conn.outstandingPackets] at hp
    obtain ⟨q, hq, hqp⟩ := List.mem_map.mp hp
    have hz := (List.mem_filter.mp hq).2
    simp only [isZeroRttAppData, Bool.and_eq_true, decide_eq_true_eq] at hz
    subst hqp
    exact ⟨rfl, hz.1, hz.2⟩
  · intro a b h
    obtain ⟨⟨e1, e2, e3, e4, e5, e6, e7, e8, e9, e10, e11, e12, e13, e14,
      e15, e16, e17, e18, e19⟩, x1, x2, x3, x4, x5, x6, x7, x8, x9, x10,
      x11⟩ := h
    simp only [undoAllClientStateForRetry, markZeroRttPacketsLost,
      freshClientConn, e1, e2, e3, e4, e5, e6, e7, e8, e9, e10, e11, e12,
      e13, e14, e15, e16, e17, e18, e19, x1, x2, x3, x4, x5, x6, x7, x8,
      x9, x10, x11]

/-- Witness for C2's amended theorem at concrete connections: the undo
of `c2ConnA` keeps exactly its two zero-RTT AppData outstandings marked
lost, and differing pending events (dropped state) do not change the
result. -/
theorem undoRetry_preserves_witness :
    (undoAllClientStateForRetry c2ConnA).outstandingPackets =
      (c2ConnA.outstandingPackets.filter isZeroRttAppData).map
        (fun p => { p with declaredLost := true }) ∧
    (⟨PacketNumberSpace.AppData, ProtectionType.ZeroRtt, true,
        1⟩ : OutstandingPacket).declaredLost = true ∧
    undoAllClientStateForRetry c2ConnA = undoAllClientStateForRetry c2ConnC
    :=
  ⟨(undoRetry_preserves_enumerated_and_zeroRtt.1 c2ConnA).2.1,
   ((undoRetry_preserves_enumerated_and_zeroRtt.1 c2ConnA).2.2
      ⟨PacketNumberSpace.AppData, ProtectionType.ZeroRtt, true, 1⟩
      (by decide)).1,
   undoRetry_preserves_enumerated_and_zeroRtt.2 c2ConnA c2ConnC
     (by refine ⟨⟨rfl, rfl, rfl, rfl, rfl, rfl, rfl, rfl, rfl, rfl, rfl,
        rfl, rfl, rfl, rfl, rfl, rfl, rfl, rfl⟩, rfl, rfl, rfl, rfl, rfl,
        rfl, rfl, rfl, rfl, rfl, rfl⟩)⟩

/-- The resumption record `CachedServerTransportParameters` (its struct
lives in the client handshake headers; the fields are those this file
reads and writes, default-initialized to zero/false). -/
structure CachedServerTransportParameters where
  idleTimeout : Nat
  maxRecvPacketSize : Nat
  initialMaxData : Nat
  initialMaxStreamDataBidiLocal : Nat
  initialMaxStreamDataBidiRemote : Nat
  initialMaxStreamDataUni : Nat
  initialMaxStreamsBidi : Nat
  initialMaxStreamsUni : Nat
  knobFrameSupport : Bool
  ackReceiveTimestampsEnabled : Bool
  maxReceiveTimestampsPerAck : Nat
  receiveTimestampsExponent : Nat
  reliableStreamResetSupport : Bool
  extendedAckFeatures : Nat
deriving DecidableEq, Repr

/-- Modelled from the spec: the default-initialized cached-parameter
record. -/
def emptyCachedParams : CachedServerTransportParameters :=
  ⟨0, 0, 0, 0, 0, 0, 0, 0, false, false, 0, 0, false, 0⟩

/-- `cacheServerInitialParams`: record the server's initial parameters
on the connection for later resumption.  The ack-receive-timestamps
values pass through `static_cast<uint8_t>` (mod 256) before the
min/max clamp against the local ceiling. -/
def cacheServerInitialParams (conn : QuicClientConnectionState)
    (peerAdvertisedInitialMaxData : Nat)
    (peerAdvertisedInitialMaxStreamDataBidiLocal : Nat)
    (peerAdvertisedInitialMaxStreamDataBidiRemote : Nat)
    (peerAdvertisedInitialMaxStreamDataUni : Nat)
    (peerAdvertisedInitialMaxStreamsBidi : Nat)
    (peerAdvertisedInitialMaxStreamUni : Nat)
    (peerAdvertisedKnobFrameSupport : Bool)
    (peerAdvertisedAckReceiveTimestampsEnabled : Bool)
    (peerAdvertisedMaxReceiveTimestampsPerAck : Nat)
    (peerAdvertisedReceiveTimestampsExponent : Nat)
    (peerAdvertisedReliableStreamResetSupport : Bool)
    (peerAdvertisedExtendedAckFeatures : Nat) :
    QuicClientConnectionState :=
  { conn with
    serverInitialParamsSet := true
    peerAdvertisedInitialMaxData := peerAdvertisedInitialMaxData
    peerAdvertisedInitialMaxStreamDataBidiLocal :=
      peerAdvertisedInitialMaxStreamDataBidiLocal
    peerAdvertisedInitialMaxStreamDataBidiRemote :=
      peerAdvertisedInitialMaxStreamDataBidiRemote
    peerAdvertisedInitialMaxStreamDataUni :=
      peerAdvertisedInitialMaxStreamDataUni
    peerAdvertisedInitialMaxStreamsBidi :=
      peerAdvertisedInitialMaxStreamsBidi
    peerAdvertisedInitialMaxStreamsUni := peerAdvertisedInitialMaxStreamUni
    peerAdvertisedKnobFrameSupport := peerAdvertisedKnobFrameSupport
    peerAdvertisedReliableStreamResetSupport :=
      peerAdvertisedReliableStreamResetSupport
    maybePeerAckReceiveTimestampsConfig :=
      if peerAdvertisedAckReceiveTimestampsEnabled then
        some
          { maxReceiveTimestampsPerAck :=
              min (peerAdvertisedMaxReceiveTimestampsPerAck % 256)
                (conn.transportSettings.maxReceiveTimestampsPerAckStored %
                  256)
            receiveTimestampsExponent :=
              max (peerAdvertisedReceiveTimestampsExponent % 256)
                (0 % 256) }
      else none
    peerAdvertisedExtendedAckFeatures := peerAdvertisedExtendedAckFeatures }

/-- `getServerCachedTransportParameters`: build the resumption record
from the connection (the timestamp fields only when the negotiated
config exists). -/
def getServerCachedTransportParameters
    (conn : QuicClientConnectionState) : CachedServerTransportParameters :=
  { emptyCachedParams with
    idleTimeout := conn.peerIdleTimeout
    maxRecvPacketSize := conn.udpSendPacketLen
    initialMaxData := conn.peerAdvertisedInitialMaxData
    initialMaxStreamDataBidiLocal :=
      conn.peerAdvertisedInitialMaxStreamDataBidiLocal
    initialMaxStreamDataBidiRemote :=
      conn.peerAdvertisedInitialMaxStreamDataBidiRemote
    initialMaxStreamDataUni := conn.peerAdvertisedInitialMaxStreamDataUni
    initialMaxStreamsBidi := conn.peerAdvertisedInitialMaxStreamsBidi
    initialMaxStreamsUni := conn.peerAdvertisedInitialMaxStreamsUni
    knobFrameSupport := conn.peerAdvertisedKnobFrameSupport
    ackReceiveTimestampsEnabled :=
      conn.maybePeerAckReceiveTimestampsConfig.isSome
    reliableStreamResetSupport :=
      conn.peerAdvertisedReliableStreamResetSupport
    maxReceiveTimestampsPerAck :=
      match conn.maybePeerAckReceiveTimestampsConfig with
      | some c => c.maxReceiveTimestampsPerAck
      | none => emptyCachedParams.maxReceiveTimestampsPerAck
    receiveTimestampsExponent :=
      match conn.maybePeerAckReceiveTimestampsConfig with
      | some c => c.receiveTimestampsExponent
      | none => emptyCachedParams.receiveTimestampsExponent
    extendedAckFeatures := conn.peerAdvertisedExtendedAckFeatures }

/-- A connection whose local ack-receive-timestamps ceiling is 10. -/
def c7Conn : QuicClientConnectionState :=
  { freshClientConn 0 with
    transportSettings := ⟨0, none, 0, false, 10, 0, 0, 0, 0⟩ }

/-- C7 counterexample: caching a max-receive-timestamps-per-ack of 256
(with ceiling 10) and reading the record back yields 0, because the
value is truncated to 8 bits before the clamp — not 10 = min 256 10 as
"clamped to the local ceiling" requires. -/
theorem cacheRoundTrip_truncates_timestamps_at_256 :
    (getServerCachedTransportParameters
        (cacheServerInitialParams c7Conn 1 2 3 4 5 6 false true 256 2 false
          7)).maxReceiveTimestampsPerAck = 0 ∧
    (0 : Nat) ≠ min 256 10 := by
  decide

/-- C7 (amended): caching the server's initial parameters and reading
the resumption record back is the identity on the flow-control windows,
stream limits, knob support, reliable-reset support, the
ack-receive-timestamps flag, and the extended-ack features; the
timestamp values come back truncated to 8 bits, the max additionally
clamped to the (8-bit-truncated) local ceiling, and both are 0 when the
extension is disabled. -/
theorem cacheRoundTrip_identity (conn : QuicClientConnectionState)
    (md bl br u sb su : Nat) (knob : Bool) (artsE : Bool)
    (artsM artsX : Nat) (rr : Bool) (ea : Nat) :
    (getServerCachedTransportParameters (cacheServerInitialParams conn md
        bl br u sb su knob artsE artsM artsX rr ea)).initialMaxData = md ∧
    (getServerCachedTransportParameters (cacheServerInitialParams conn md
        bl br u sb su knob artsE artsM artsX rr
        ea)).initialMaxStreamDataBidiLocal = bl ∧
    (getServerCachedTransportParameters (cacheServerInitialParams conn md
        bl br u sb su knob artsE artsM artsX rr
        ea)).initialMaxStreamDataBidiRemote = br ∧
    (getServerCachedTransportParameters (cacheServerInitialParams conn md
        bl br u sb su knob artsE artsM artsX rr
        ea)).initialMaxStreamDataUni = u ∧
    (getServerCachedTransportParameters (cacheServerInitialParams conn md
        bl br u sb su knob artsE artsM artsX rr
        ea)).initialMaxStreamsBidi = sb ∧
    (getServerCachedTransportParameters (cacheServerInitialParams conn md
        bl br u sb su knob artsE artsM artsX rr
        ea)).initialMaxStreamsUni = su ∧
    (getServerCachedTransportParameters (cacheServerInitialParams conn md
        bl br u sb su knob artsE artsM artsX rr
        ea)).knobFrameSupport = knob ∧
    (getServerCachedTransportParameters (cacheServerInitialParams conn md
        bl br u sb su knob artsE artsM artsX rr
        ea)).reliableStreamResetSupport = rr ∧
    (getServerCachedTransportParameters (cacheServerInitialParams conn md
        bl br u sb su knob artsE artsM artsX rr
        ea)).ackReceiveTimestampsEnabled = artsE ∧
    (artsE = true →
      (getServerCachedTransportParameters (cacheServerInitialParams conn md
          bl br u sb su knob artsE artsM artsX rr
          ea)).maxReceiveTimestampsPerAck =
        min (artsM % 256)
          (conn.transportSettings.maxReceiveTimestampsPerAckStored % 256) ∧
      (getServerCachedTransportParameters (cacheServerInitialParams conn md
          bl br u sb su knob artsE artsM artsX rr
          ea)).receiveTimestampsExponent = artsX % 256) ∧
    (artsE = false →
      (getServerCachedTransportParameters (cacheServerInitialParams conn md
          bl br u sb su knob artsE artsM artsX rr
          ea)).maxReceiveTimestampsPerAck = 0 ∧
      (getServerCachedTransportParameters (cacheServerInitialParams conn md
          bl br u sb su knob artsE artsM artsX rr
          ea)).receiveTimestampsExponent = 0) ∧
    (getServerCachedTransportParameters (cacheServerInitialParams conn md
        bl br u sb su knob artsE artsM artsX rr
        ea)).extendedAckFeatures = ea := by
  cases artsE
  · refine ⟨rfl, rfl, rfl, rfl, rfl, rfl, rfl, rfl, rfl, ?_, ?_, rfl⟩
    · intro h
      exact absurd h (by simp)
    · intro _
      exact ⟨rfl, rfl⟩
  · refine ⟨rfl, rfl, rfl, rfl, rfl, rfl, rfl, rfl, rfl, ?_, ?_, rfl⟩
    · intro _
      refine ⟨rfl, ?_⟩
      show max (artsX % 256) (0 % 256) = artsX % 256
      simp
    · intro h
      exact absurd h (by simp)

/-- Witness for C7's amended theorem: with ceiling 10, caching max 7
gives back min 7 10 = 7; with the extension disabled the field reads
0. -/
theorem cacheRoundTrip_identity_witness :
    (getServerCachedTransportParameters (cacheServerInitialParams c7Conn 1
        2 3 4 5 6 true true 7 2 true 9)).maxReceiveTimestampsPerAck =
      min (7 % 256)
        (c7Conn.transportSettings.maxReceiveTimestampsPerAckStored % 256) ∧
    (getServerCachedTransportParameters (cacheServerInitialParams c7Conn 1
        2 3 4 5 6 false false 7 2 false
        9)).maxReceiveTimestampsPerAck = 0 :=
  ⟨((cacheRoundTrip_identity c7Conn 1 2 3 4 5 6 true true 7 2 true
      9).2.2.2.2.2.2.2.2.2.1 rfl).1,
   ((cacheRoundTrip_identity c7Conn 1 2 3 4 5 6 false false 7 2 false
      9).2.2.2.2.2.2.2.2.2.2.1 rfl).1⟩

/-- Modelled from the spec: the default UDP send packet length (1252);
the constant lives in QuicConstants, outside the files in scope. -/
def kDefaultUDPSendPacketLen : Nat := 1252

/-- Modelled from the spec: the minimum max-UDP-payload a peer may
advertise (1200). -/
def kMinMaxUDPPayload : Nat := 1200

/-- Modelled from the spec: the largest legal ack-delay exponent
(20). -/
def kMaxAckDelayExponent : Nat := 20

/-- Modelled from the spec: the QUIC v1 default ack-delay exponent
(3). -/
def kDefaultAckDelayExponent : Nat := 3

/-- Modelled from the spec: the default maximum UDP payload used when
path MTU can be ignored (the exact value is not fixed by the spec). -/
def kDefaultMaxUDPPayload : Nat := 1452

/-- Modelled from the spec: the default active-connection-id limit (the
exact value is not fixed by the spec). -/
def kDefaultActiveConnectionIdLimit : Nat := 2

/-- Modelled from the spec: the datagram overhead constant (≈ 40). -/
def kMaxDatagramPacketOverhead : Nat := 40

/-- Modelled from the spec: the local upper bound on the peer idle
timeout, in milliseconds (the exact value is not fixed by the spec). -/
def kMaxIdleTimeout : Nat := 600000

/-- Modelled from the spec: the server's transport parameters after
extraction — `getIntegerParameter` / `getConnIdParameter` /
`getStatelessResetTokenParameter` live in the codec, outside the files
in scope, so each parameter arrives as an already-parsed optional value
(wire parse errors are out of scope).  `reliableStreamReset` carries
the raw value bytes when the parameter is present. -/
structure ServerTransportParameters where
  initialMaxData : Option Nat
  initialMaxStreamDataBidiLocal : Option Nat
  initialMaxStreamDataBidiRemote : Option Nat
  initialMaxStreamDataUni : Option Nat
  idleTimeout : Option Nat
  initialMaxStreamsBidi : Option Nat
  initialMaxStreamsUni : Option Nat
  ackDelayExponent : Option Nat
  maxPacketSize : Option Nat
  statelessResetToken : Option Nat
  activeConnectionIdLimit : Option Nat
  maxDatagramFrameSize : Option Nat
  streamGroupsEnabled : Option Nat
  minAckDelay : Option Nat
  ackReceiveTimestampsEnabled : Option Nat
  maxReceiveTimestampsPerAck : Option Nat
  receiveTimestampsExponent : Option Nat
  knobFramesSupported : Option Nat
  extendedAckFeatures : Option Nat
  reliableStreamReset : Option (List Nat)
  initialSourceConnectionId : Option (List Nat)
  originalDestinationConnectionId : Option (List Nat)
deriving DecidableEq, Repr

/-- Whether the negotiated version is QUIC v1, one of its aliases, or
the priming version. -/
def isV1Family (v : Option QuicVersion) : Bool :=
  match v with
  | some QuicVersion.QUIC_V1 => true
  | some QuicVersion.QUIC_V1_ALIAS => true
  | some QuicVersion.QUIC_V1_ALIAS2 => true
  | some QuicVersion.MVFST_PRIMING => true
  | _ => false

/-- Modelled from the spec: stream id bit 0x2 set marks a
unidirectional stream. -/
def isUnidirectionalStream (id : Nat) : Bool :=
  2 ≤ id % 4

/-- Modelled from the spec: a stream is local when its initiator bit
(0x1) names this endpoint. -/
def isLocalStream (nodeType : QuicNodeType) (id : Nat) : Bool :=
  match nodeType with
  | QuicNodeType.Client => id % 2 = 0
  | QuicNodeType.Server => id % 2 = 1

/-- Modelled from the spec: `setMaxLocalBidirectionalStreams` updates
the stream manager's limit (its failure mode lives outside the files in
scope; the spec describes a plain update). -/
def setMaxLocalBidirectionalStreams (sm : QuicStreamManager) (n : Nat) :
    QuicStreamManager :=
  { sm with maxLocalBidirectionalStreams := n }

/-- Modelled from the spec: `setMaxLocalUnidirectionalStreams` updates
the stream manager's limit. -/
def setMaxLocalUnidirectionalStreams (sm : QuicStreamManager) (n : Nat) :
    QuicStreamManager :=
  { sm with maxLocalUnidirectionalStreams := n }

/-- Modelled from the spec: `handleStreamWindowUpdate` applies the
advertised flow-control window to a pre-existing stream. -/
def handleStreamWindowUpdate (s : Nat × Nat) (windowSize : Nat)
    (_packetNum : Nat) : Nat × Nat :=
  (s.1, windowSize)

/-- The per-stream window the parameter walk selects: the local
advertised uni window for unidirectional streams, else the bidi-local
or bidi-remote window by stream locality. -/
def windowForStream (conn : QuicClientConnectionState) (id : Nat) : Nat :=
  if isUnidirectionalStream id then
    conn.transportSettings.advertisedInitialUniStreamFlowControlWindow
  else if isLocalStream conn.nodeType id then
    conn.transportSettings.advertisedInitialBidiLocalStreamFlowControlWindow
  else
    conn.transportSettings.advertisedInitialBidiRemoteStreamFlowControlWindow

/-- The packet-size defaulting of `processServerInitialParams`: absent
or zero becomes `kDefaultUDPSendPacketLen`. -/
def effectivePacketSize (p : Option Nat) : Nat :=
  if p = none ∨ p = some 0 then kDefaultUDPSendPacketLen else p.getD 0

/-- `processServerInitialParams`: validate the server's parameters in
source order (reliable-reset value must be empty; for the v1 family the
initial-source and original-destination CIDs must match; the defaulted
packet size must reach the minimum; the ack-delay exponent must not
exceed the maximum; a nonzero datagram size must exceed the overhead)
and apply them to the connection: flow control, stream limits, idle
timeout (clamped), ack-delay exponent, min ack delay, packet length
(when path MTU can be ignored), active-CID limit, stateless reset
token, per-stream windows, datagram size, stream groups,
ack-receive-timestamps config (8-bit truncated, max clamped to the
local ceiling), knob support and extended-ack features.  The source
applies these assignments sequentially by mutation; they are
independent of one another and of the later checks (none reads a field
another writes), so they are gathered into one record update, and an
error return discards the partial mutations (the caller closes the
connection on any error from this function). -/
def processServerInitialParams (conn : QuicClientConnectionState)
    (sp : ServerTransportParameters) (packetNum : Nat) :
    Except QuicError QuicClientConnectionState :=
  if (match sp.reliableStreamReset with
      | some v => decide (v ≠ [])
      | none => false) then
    Except.error ⟨TransportErrorCode.TRANSPORT_PARAMETER_ERROR,
      "Reliable reset transport parameter must be empty"⟩
  else if isV1Family conn.version &&
      !(match sp.initialSourceConnectionId,
          sp.originalDestinationConnectionId with
        | some isc, some odc =>
          decide (conn.readCodec.serverConnectionId = some isc) &&
            decide (conn.originalDestinationConnectionId = some odc)
        | _, _ => false) then
    Except.error ⟨TransportErrorCode.TRANSPORT_PARAMETER_ERROR,
      "Initial CID does not match."⟩
  else if effectivePacketSize sp.maxPacketSize < kMinMaxUDPPayload then
    Except.error ⟨TransportErrorCode.TRANSPORT_PARAMETER_ERROR,
      "Max packet size too small. received max_packetSize = " ++
        toString (effectivePacketSize sp.maxPacketSize)⟩
  else if (match sp.ackDelayExponent with
      | some e => decide (kMaxAckDelayExponent < e)
      | none => false) then
    Except.error ⟨TransportErrorCode.TRANSPORT_PARAMETER_ERROR,
      "ack_delay_exponent too large"⟩
  else if (match sp.maxDatagramFrameSize with
      | some d => decide (0 < d ∧ d ≤ kMaxDatagramPacketOverhead)
      | none => false) then
    Except.error ⟨TransportErrorCode.TRANSPORT_PARAMETER_ERROR,
      "max_datagram_frame_size too small"⟩
  else
    Except.ok { conn with
      peerAdvertisedReliableStreamResetSupport :=
        sp.reliableStreamReset.isSome
      flowControlState := { conn.flowControlState with
        peerAdvertisedMaxOffset := sp.initialMaxData.getD 0
        peerAdvertisedInitialMaxStreamOffsetBidiLocal :=
          sp.initialMaxStreamDataBidiLocal.getD 0
        peerAdvertisedInitialMaxStreamOffsetBidiRemote :=
          sp.initialMaxStreamDataBidiRemote.getD 0
        peerAdvertisedInitialMaxStreamOffsetUni :=
          sp.initialMaxStreamDataUni.getD 0 }
      streamManager :=
        { setMaxLocalUnidirectionalStreams
            (setMaxLocalBidirectionalStreams conn.streamManager
              (sp.initialMaxStreamsBidi.getD 0))
            (sp.initialMaxStreamsUni.getD 0) with
          streams := conn.streamManager.streams.map (fun s =>
            handleStreamWindowUpdate s (windowForStream conn s.1)
              packetNum) }
      peerAdvertisedInitialMaxStreamsBidi := sp.initialMaxStreamsBidi.getD 0
      peerAdvertisedInitialMaxStreamsUni := sp.initialMaxStreamsUni.getD 0
      peerIdleTimeout := min (sp.idleTimeout.getD 0) kMaxIdleTimeout
      peerAckDelayExponent :=
        sp.ackDelayExponent.getD kDefaultAckDelayExponent
      peerMinAckDelay :=
        match sp.minAckDelay with
        | some d => some d
        | none => conn.peerMinAckDelay
      udpSendPacketLen :=
        if conn.transportSettings.canIgnorePathMTU then
          min (effectivePacketSize sp.maxPacketSize) kDefaultMaxUDPPayload
        else conn.udpSendPacketLen
      peerActiveConnectionIdLimit :=
        sp.activeConnectionIdLimit.getD kDefaultActiveConnectionIdLimit
      statelessResetToken := sp.statelessResetToken
      datagramMaxWriteFrameSize :=
        match sp.maxDatagramFrameSize with
        | some d => d
        | none => conn.datagramMaxWriteFrameSize
      peerAdvertisedMaxStreamGroups :=
        match sp.streamGroupsEnabled with
        | some g => some g
        | none => conn.peerAdvertisedMaxStreamGroups
      maybePeerAckReceiveTimestampsConfig :=
        if (match sp.ackReceiveTimestampsEnabled with
            | some v => decide (v = 1)
            | none => false) &&
            sp.maxReceiveTimestampsPerAck.isSome &&
            sp.receiveTimestampsExponent.isSome then
          some
            { maxReceiveTimestampsPerAck :=
                min (sp.maxReceiveTimestampsPerAck.getD 0 % 256)
                  (conn.transportSettings.maxReceiveTimestampsPerAckStored
                    % 256)
              receiveTimestampsExponent :=
                max (sp.receiveTimestampsExponent.getD 0 % 256) (0 % 256) }
        else conn.maybePeerAckReceiveTimestampsConfig
      peerAdvertisedKnobFrameSupport := 0 < sp.knobFramesSupported.getD 0
      peerAdvertisedExtendedAckFeatures := sp.extendedAckFeatures.getD 0 }

/-- C8 (confirmed): provided the earlier validations pass (an absent or
empty reliable-reset parameter; for the v1 family, matching connection
ids), an absent or zero `max_packet_size` behaves exactly as the
default 1252, and a nonzero value below the minimum 1200 makes
`processServerInitialParams` fail with `TRANSPORT_PARAMETER_ERROR`
whose message names the received max packet size. -/
theorem processServerInitialParams_packet_size_rule
    (conn : QuicClientConnectionState) (sp : ServerTransportParameters)
    (packetNum : Nat)
    (hrr : ∀ v, sp.reliableStreamReset = some v → v = [])
    (hcid : isV1Family conn.version = true →
      (∃ isc, sp.initialSourceConnectionId = some isc ∧
        conn.readCodec.serverConnectionId = some isc) ∧
      (∃ odc, sp.originalDestinationConnectionId = some odc ∧
        conn.originalDestinationConnectionId = some odc)) :
    ((sp.maxPacketSize = none ∨ sp.maxPacketSize = some 0) →
      processServerInitialParams conn
          { sp with maxPacketSize := some kDefaultUDPSendPacketLen }
          packetNum =
        processServerInitialParams conn sp packetNum) ∧
    (∀ n, sp.maxPacketSize = some n → 0 < n → n < kMinMaxUDPPayload →
      processServerInitialParams conn sp packetNum =
        Except.error ⟨TransportErrorCode.TRANSPORT_PARAMETER_ERROR,
          "Max packet size too small. received max_packetSize = " ++
            toString n⟩) := by
  have hrrcond : (match sp.reliableStreamReset with
      | some v => decide (v ≠ [])
      | none => false) = false := by
    rcases hv : sp.reliableStreamReset with _ | v
    · rfl
    · simp [hrr v hv]
  have hcidcond :
      (isV1Family conn.version &&
        !(match sp.initialSourceConnectionId,
            sp.originalDestinationConnectionId with
          | some isc, some odc =>
            decide (conn.readCodec.serverConnectionId = some isc) &&
              decide (conn.originalDestinationConnectionId = some odc)
          | _, _ => false)) = false := by
    cases hfam : isV1Family conn.version
    · rfl
    · obtain ⟨⟨isc, hisc, hsc⟩, ⟨odc, hodc, hoc⟩⟩ := hcid hfam
      rw [hisc, hodc]
      simp [hsc, hoc]
  constructor
  · intro hmp
    have he : effectivePacketSize (some kDefaultUDPSendPacketLen) =
        effectivePacketSize sp.maxPacketSize := by
      rcases hmp with h | h <;>
        simp [effectivePacketSize, h, kDefaultUDPSendPacketLen]
    simp only [processServerInitialParams]
    rw [he]
  · intro n hn h0 hlt
    have hne : effectivePacketSize sp.maxPacketSize = n := by
      have : n ≠ 0 := Nat.pos_iff_ne_zero.mp h0
      simp [effectivePacketSize, hn, this]
    simp only [processServerInitialParams, hrrcond, hcidcond,
      Bool.false_eq_true, if_false, hne]
    rw [if_pos hlt]

/-- Server parameters carrying only `max_packet_size = 1000`
(scenario S5). -/
def c8Params : ServerTransportParameters :=
  { initialMaxData := none
    initialMaxStreamDataBidiLocal := none
    initialMaxStreamDataBidiRemote := none
    initialMaxStreamDataUni := none
    idleTimeout := none
    initialMaxStreamsBidi := none
    initialMaxStreamsUni := none
    ackDelayExponent := none
    maxPacketSize := some 1000
    statelessResetToken := none
    activeConnectionIdLimit := none
    maxDatagramFrameSize := none
    streamGroupsEnabled := none
    minAckDelay := none
    ackReceiveTimestampsEnabled := none
    maxReceiveTimestampsPerAck := none
    receiveTimestampsExponent := none
    knobFramesSupported := none
    extendedAckFeatures := none
    reliableStreamReset := none
    initialSourceConnectionId := none
    originalDestinationConnectionId := none }

/-- The same parameters with `max_packet_size` absent. -/
def c8ParamsAbsent : ServerTransportParameters :=
  { c8Params with maxPacketSize := none }

/-- Witness for C8 at scenario S5: `max_packet_size = 1000` is rejected
with the expected message, and an absent size behaves exactly like the
default 1252. -/
theorem processServerInitialParams_packet_size_witness :
    processServerInitialParams (freshClientConn 0) c8Params 0 =
      Except.error ⟨TransportErrorCode.TRANSPORT_PARAMETER_ERROR,
        "Max packet size too small. received max_packetSize = " ++
          toString 1000⟩ ∧
    processServerInitialParams (freshClientConn 0)
        { c8ParamsAbsent with maxPacketSize := some kDefaultUDPSendPacketLen }
        0 =
      processServerInitialParams (freshClientConn 0) c8ParamsAbsent 0 :=
  ⟨(processServerInitialParams_packet_size_rule (freshClientConn 0) c8Params
      0 (fun v hv => Option.noConfusion hv)
      (fun h => absurd h (by decide))).2 1000 rfl (by decide) (by decide),
   (processServerInitialParams_packet_size_rule (freshClientConn 0)
      c8ParamsAbsent 0 (fun v hv => Option.noConfusion hv)
      (fun h => absurd h (by decide))).1 (Or.inl rfl)⟩
